import Mathlib

/-!
# Verification of the ADR_Toolbox mission routing/optimization engine

Shallow embedding of the core of `adr_toolbox` (files `mission.py` and
`optimize.py`) together with proofs about the embedded definitions.

Embedding conventions:
* Pure combinatorial code (the genome decoder, the refuel branch, the
  per-evaluation mutable state of the mission simulator) is embedded as
  computable functions over `ℕ` / `ℚ` / lists, translated line by line
  from the Python source.
* Real-valued astrodynamics formulas (`calc_raan_dot`, the Edelbaum
  low-thrust model, the impulsive model, the Monte-Carlo aggregation
  `mean + k·std`) are embedded over `ℝ` using `Real.sqrt`, `Real.cos`,
  `Real.exp` and `Real.pi`, mirroring the floating point formulas of the
  source.  Division by zero in the source produces IEEE `inf`/`nan`;
  over `ℝ` Lean's convention `x / 0 = 0` applies, and theorems about the
  degenerate cases are phrased so that they exhibit the vanishing
  denominator itself rather than relying on the value of the quotient.
* The calls `random.uniform(lo, hi)` of the Monte-Carlo samplers are
  nondeterministic; they are embedded as an explicit function argument
  `draws : ℕ → ℕ → ℝ → ℝ → ℝ` (sample index, element index, lower
  bound, upper bound) so that every theorem quantifies over all possible
  realizations of the randomness.  The only fact about `random.uniform`
  used in the degenerate-interval theorems, `uniform(a, a) = a`, is an
  explicit hypothesis where needed (it holds exactly for floats since
  `uniform(a, b) = a + (b - a)·random()`).
* The mission simulator `Mission.__traverse_routes` calls the Monte-Carlo
  samplers `__calc_transfer_costs` / `__calc_raan_wait` / `__calc_alt_drop`
  and the precession rate `calc_raan_dot`; in the simulator embedding these
  numeric kernels are collected in an explicit `Kernels` record of
  `ℚ`-valued functions, so that the control flow and the state handling of
  the simulator are embedded exactly while theorems quantify over the
  kernels (and concrete counterexamples instantiate them).
-/

namespace ADRToolbox

open List (Perm Sublist IsPrefix IsSuffix IsInfix)
open scoped List

/-! ## Route decoder (`Mission.__decode_routing`, mission.py lines 425-461) -/

/-- `ind.index(0)` followed by the rotation
`ind_shift = ind[ind.index(0):] + ind[:ind.index(0)]` (line 442). -/
def rotate0 (ind : List ℕ) : List ℕ :=
  ind.drop (ind.indexOf 0) ++ ind.take (ind.indexOf 0)

/-- `start_ints = [x for x in range(num_vehicles)]` (line 439). -/
def start_ints (num_vehicles : ℕ) : List ℕ := List.range num_vehicles

/-- The loop of lines 445-448: indices `i` of `enumerate(ind_shift)` whose
value is one of the separator values `start_ints`. -/
def start_positions (l : List ℕ) (num_vehicles : ℕ) : List ℕ :=
  (l.enum.filter (fun p => p.2 ∈ start_ints num_vehicles)).map Prod.fst

/-- `routes = [ind_shift[i:j] for i,j in zip(start_inds, start_inds[1:]+[None])]`
(line 451): consecutive slices from each start index to the next, the last
slice running to the end of the list. -/
def slices (l : List ℕ) : List ℕ → List (List ℕ)
  | [] => []
  | [i] => [l.drop i]
  | i :: j :: rest => ((l.take j).drop i) :: slices l (j :: rest)

/-- The comparison used by `sorted(routes, key=lambda x: x[0])` (line 454). -/
def seg_le (a b : List ℕ) : Bool := a.headD 0 ≤ b.headD 0

/-- `Mission.__decode_routing(ind, num_vehicles)` (lines 425-461). -/
def decode_routing (ind : List ℕ) (num_vehicles : ℕ) : List (List ℕ) :=
  let ind_shift := rotate0 ind
  let routes := slices ind_shift (start_positions ind_shift num_vehicles)
  let routes_sorted := routes.mergeSort seg_le
  routes_sorted.map (fun route => route.tail.map (fun x => x - num_vehicles))

/-! ### Decoder lemmas -/

lemma rotate0_perm (ind : List ℕ) : rotate0 ind ~ ind := by
  unfold rotate0
  exact (List.perm_append_comm).trans (by rw [List.take_append_drop])

lemma mem_start_ints {V x : ℕ} : x ∈ start_ints V ↔ x < V := List.mem_range

lemma mem_start_positions {l : List ℕ} {V m : ℕ} :
    m ∈ start_positions l V ↔ ∃ v, l[m]? = some v ∧ v < V := by
  unfold start_positions
  simp only [List.mem_map, List.mem_filter, mem_start_ints]
  constructor
  · rintro ⟨⟨i, v⟩, ⟨hmem, hv⟩, rfl⟩
    exact ⟨v, List.mem_enum_iff_getElem?.mp hmem, by simpa using hv⟩
  · rintro ⟨v, hget, hv⟩
    exact ⟨(m, v), ⟨List.mem_enum_iff_getElem?.mpr hget, by simpa using hv⟩, rfl⟩

lemma start_positions_lt_length {l : List ℕ} {V m : ℕ}
    (h : m ∈ start_positions l V) : m < l.length := by
  obtain ⟨v, hget, -⟩ := mem_start_positions.mp h
  exact (List.getElem?_eq_some.mp hget).1

lemma start_positions_sorted (l : List ℕ) (V : ℕ) :
    (start_positions l V).Sorted (· < ·) := by
  have hsub : start_positions l V <+ l.enum.map Prod.fst :=
    List.Sublist.map Prod.fst (List.filter_sublist l.enum)
  rw [List.enum_map_fst] at hsub
  exact List.Pairwise.sublist hsub (List.sorted_lt_range l.length)

/-- Values of a list at the positions selected by `enumFrom`-filtering on the
value: mapping `Prod.snd` over the filtered enumeration recovers `filter`. -/
lemma enumFrom_filter_snd {α : Type} (q : α → Bool) :
    ∀ (l : List α) (n : ℕ),
      ((l.enumFrom n).filter (fun p => q p.2)).map Prod.snd = l.filter q
  | [], _ => rfl
  | a :: l, n => by
    simp only [List.enumFrom_cons, List.filter_cons]
    by_cases h : q a
    · simpa [h] using congrArg (a :: ·) (enumFrom_filter_snd q l (n + 1))
    · simpa [h] using enumFrom_filter_snd q l (n + 1)

lemma start_positions_values (l : List ℕ) (V : ℕ) :
    (start_positions l V).map (fun i => l.getD i 0)
      = l.filter (fun x => x ∈ start_ints V) := by
  unfold start_positions
  rw [List.map_map]
  have hcongr :
      (l.enum.filter (fun p => p.2 ∈ start_ints V)).map
        ((fun i => l.getD i 0) ∘ Prod.fst)
      = (l.enum.filter (fun p => p.2 ∈ start_ints V)).map Prod.snd := by
    apply List.map_congr_left
    intro p hp
    have hmem : p ∈ l.enum := List.mem_of_mem_filter hp
    have := List.mem_enum_iff_getElem?.mp hmem
    simp [List.getD_eq_getElem?_getD, this]
  rw [hcongr]
  have henum : l.enum = l.enumFrom 0 := rfl
  rw [henum]
  exact enumFrom_filter_snd (fun x => decide (x ∈ start_ints V)) l 0

lemma slices_length (l : List ℕ) : ∀ s : List ℕ, (slices l s).length = s.length
  | [] => rfl
  | [_] => rfl
  | _ :: j :: rest => by
    simpa [slices] using slices_length l (j :: rest)

lemma slices_infix (l : List ℕ) :
    ∀ s : List ℕ, ∀ t ∈ slices l s, t <:+: l
  | [], t, ht => by simp [slices] at ht
  | [i], t, ht => by
    simp only [slices, List.mem_singleton] at ht
    exact ht ▸ (l.drop_suffix i).isInfix
  | i :: j :: rest, t, ht => by
    simp only [slices, List.mem_cons] at ht
    rcases ht with rfl | ht
    · exact (((l.take j).drop_suffix i).isInfix).trans (l.take_prefix j).isInfix
    · exact slices_infix l (j :: rest) t ht

lemma take_drop_append_drop {α : Type} (l : List α) {i j : ℕ} (hij : i ≤ j) :
    (l.take j).drop i ++ l.drop j = l.drop i := by
  rw [List.drop_take]
  have hjj : l.drop j = (l.drop i).drop (j - i) := by
    rw [List.drop_drop]
    congr 1
    omega
  rw [hjj, List.take_append_drop]

lemma slices_flatten (l : List ℕ) :
    ∀ s : List ℕ, s.Chain' (· < ·) →
      (slices l s).flatten = l.drop (s.headD l.length)
  | [], _ => by simp [slices]
  | [i], _ => by simp [slices]
  | i :: j :: rest, hc => by
    have hij : i < j := (List.chain'_cons.mp hc).1
    have hrest := (List.chain'_cons.mp hc).2
    simp only [slices, List.flatten_cons, slices_flatten l (j :: rest) hrest,
      List.headD_cons]
    exact take_drop_append_drop l (by omega)

lemma slices_head (l : List ℕ) :
    ∀ s : List ℕ, s.Chain' (· < ·) → (∀ i ∈ s, i < l.length) →
      (slices l s).map (fun t => t.headD 0) = s.map (fun i => l.getD i 0)
  | [], _, _ => rfl
  | [i], _, hb => by
    have hi : i < l.length := hb i (by simp)
    have : (l.drop i).headD 0 = l.getD i 0 := by
      rw [List.headD_eq_head?_getD, List.head?_drop, List.getD_eq_getElem?_getD]
    simp only [slices, List.map_cons, List.map_nil]
    rw [this]
  | i :: j :: rest, hc, hb => by
    have hij : i < j := (List.chain'_cons.mp hc).1
    have hi : i < l.length := hb i (by simp)
    have hhead : ((l.take j).drop i).headD 0 = l.getD i 0 := by
      rw [List.headD_eq_head?_getD, List.head?_drop, List.getD_eq_getElem?_getD]
      rw [List.getElem?_take_of_lt hij]
    have ih := slices_head l (j :: rest) (List.chain'_cons.mp hc).2
      (fun m hm => hb m (List.mem_cons_of_mem _ hm))
    simp only [slices, List.map_cons]
    rw [hhead, ih]
    simp

lemma slices_ne_nil (l : List ℕ) :
    ∀ s : List ℕ, s.Chain' (· < ·) → (∀ i ∈ s, i < l.length) →
      ∀ t ∈ slices l s, t ≠ []
  | [], _, _, t, ht => by simp [slices] at ht
  | [i], _, hb, t, ht => by
    simp only [slices, List.mem_singleton] at ht
    subst ht
    have hi : i < l.length := hb i (by simp)
    simp [List.drop_eq_nil_iff]
    omega
  | i :: j :: rest, hc, hb, t, ht => by
    simp only [slices, List.mem_cons] at ht
    rcases ht with rfl | ht
    · have hij : i < j := (List.chain'_cons.mp hc).1
      have hi : i < l.length := hb i (by simp)
      have : ((l.take j).drop i).length ≠ 0 := by
        simp only [List.length_drop, List.length_take]
        omega
      exact fun hnil => this (by simp [hnil])
    · exact slices_ne_nil l (j :: rest) (List.chain'_cons.mp hc).2
        (fun m hm => hb m (List.mem_cons_of_mem _ hm)) t ht

/-- Every element of the tail of a slice sits at a position strictly between
the slice's start position and the next start position (or the end). -/
lemma mem_tail_slice_take {l : List ℕ} {i j : ℕ} {x : ℕ}
    (hx : x ∈ ((l.take j).drop i).tail) :
    ∃ m, i < m ∧ m < j ∧ ∃ hm : m < l.length, l[m] = x := by
  rw [List.tail_drop] at hx
  obtain ⟨n, hn, hget⟩ := List.mem_iff_getElem.mp hx
  have hlen := hn
  simp only [List.length_drop, List.length_take] at hlen
  have hb : i + 1 + n < j ∧ i + 1 + n < l.length := by omega
  refine ⟨i + 1 + n, by omega, hb.1, hb.2, ?_⟩
  rw [List.getElem_drop] at hget
  rw [List.getElem_take] at hget
  exact hget

lemma mem_tail_slice_drop {l : List ℕ} {i : ℕ} {x : ℕ}
    (hx : x ∈ (l.drop i).tail) :
    ∃ m, i < m ∧ ∃ hm : m < l.length, l[m] = x := by
  rw [List.tail_drop] at hx
  obtain ⟨n, hn, hget⟩ := List.mem_iff_getElem.mp hx
  have hlen := hn
  simp only [List.length_drop] at hlen
  refine ⟨i + 1 + n, by omega, by omega, ?_⟩
  rw [List.getElem_drop] at hget
  exact hget

/-- Interior elements of the slices are not separator values: the start
positions list is complete, so a separator value strictly between two
consecutive start positions would contradict its sortedness. -/
lemma slices_tail_not_start (l : List ℕ) (V : ℕ) :
    ∀ pre suf : List ℕ, pre ++ suf = start_positions l V →
      ∀ t ∈ slices l suf, ∀ x ∈ t.tail, ¬ (x ∈ start_ints V)
  | _, [], _, t, ht => by simp [slices] at ht
  | pre, [i], hfull, t, ht => by
    simp only [slices, List.mem_singleton] at ht
    subst ht
    intro x hx hxV
    obtain ⟨m, him, hm, hget⟩ := mem_tail_slice_drop hx
    have hmem : m ∈ start_positions l V :=
      mem_start_positions.mpr ⟨x, by simp [List.getElem?_eq_some, hm, hget],
        mem_start_ints.mp hxV⟩
    rw [← hfull] at hmem
    have hsorted : (pre ++ [i]).Sorted (· < ·) := by
      rw [hfull]; exact start_positions_sorted l V
    rcases List.mem_append.mp hmem with hpre | hone
    · have : m < i := by
        have := List.pairwise_append.mp hsorted
        exact this.2.2 m hpre i (by simp)
      omega
    · simp only [List.mem_singleton] at hone
      omega
  | pre, i :: j :: rest, hfull, t, ht => by
    simp only [slices, List.mem_cons] at ht
    rcases ht with rfl | ht
    · intro x hx hxV
      obtain ⟨m, him, hmj, hm, hget⟩ := mem_tail_slice_take hx
      have hmem : m ∈ start_positions l V :=
        mem_start_positions.mpr ⟨x, by simp [List.getElem?_eq_some, hm, hget],
          mem_start_ints.mp hxV⟩
      rw [← hfull] at hmem
      have hsorted : (pre ++ i :: j :: rest).Sorted (· < ·) := by
        rw [hfull]; exact start_positions_sorted l V
      have hpw := List.pairwise_append.mp hsorted
      rcases List.mem_append.mp hmem with hpre | hsuf
      · have : m < i := hpw.2.2 m hpre i (by simp)
        omega
      · rcases hsuf with _ | ⟨_, hsuf⟩
        · omega
        rcases hsuf with _ | ⟨_, hsuf⟩
        · omega
        · have : j < m := by
            have hj := List.pairwise_cons.mp (List.pairwise_cons.mp hpw.2.1).2
            exact hj.1 m hsuf
          omega
    · exact slices_tail_not_start l V (pre ++ [i]) (j :: rest)
        (by simpa using hfull) t ht

lemma filter_start_ints_range (V T : ℕ) :
    (List.range (V + T)).filter (fun x => x ∈ start_ints V) = List.range V := by
  induction T with
  | zero =>
    apply List.filter_eq_self.mpr
    intro a ha
    simpa [mem_start_ints] using List.mem_range.mp ha
  | succ T ih =>
    have : V + (T + 1) = (V + T) + 1 := by omega
    rw [this, List.range_succ, List.filter_append, ih]
    have : ¬ ((V + T) ∈ start_ints V) := by simp [mem_start_ints]
    simp [this]

/-- The number of slices containing a given element is bounded by its
multiplicity in the concatenation. -/
lemma countP_mem_le_count_flatten (a : ℕ) :
    ∀ S : List (List ℕ), (S.countP (fun t => a ∈ t)) ≤ S.flatten.count a
  | [] => by simp
  | t :: S => by
    rw [List.countP_cons, List.flatten_cons, List.count_append]
    by_cases h : a ∈ t
    · have h1 : 1 ≤ t.count a := List.one_le_count_iff.mpr h
      have h2 := countP_mem_le_count_flatten a S
      simp only [h]
      simp only [decide_True, if_true]
      omega
    · have h2 := countP_mem_le_count_flatten a S
      simp [h]
      omega

lemma head?_eq_some_headD {t : List ℕ} (h : t ≠ []) : t.head? = some (t.headD 0) := by
  cases t with
  | nil => exact absurd rfl h
  | cons a t => rfl

lemma rotate0_getElem?_zero {ind : List ℕ} (h : 0 ∈ ind) :
    (rotate0 ind)[0]? = some 0 := by
  unfold rotate0
  have hidx : ind.indexOf 0 < ind.length := List.indexOf_lt_length.mpr h
  have hlen : 0 < (ind.drop (ind.indexOf 0)).length := by
    simp only [List.length_drop]
    omega
  rw [List.getElem?_append, if_pos hlen, List.getElem?_drop]
  simp only [Nat.add_zero]
  rw [List.getElem?_eq_getElem hidx]
  congr 1
  exact List.getElem_indexOf hidx

lemma starts_headD_zero {R : List ℕ} {V : ℕ} (h0 : 0 ∈ start_positions R V)
    (d : ℕ) : (start_positions R V).headD d = 0 := by
  rcases hs : start_positions R V with _ | ⟨a, s⟩
  · rw [hs] at h0
    simp at h0
  · rw [hs] at h0
    have hsort := start_positions_sorted R V
    rw [hs] at hsort
    rcases List.mem_cons.mp h0 with ha | hmem
    · simp [← ha]
    · have : a < 0 := (List.pairwise_cons.mp hsort).1 0 hmem
      omega

lemma length_start_positions (l : List ℕ) (V : ℕ) :
    (start_positions l V).length = (l.filter (fun x => x ∈ start_ints V)).length := by
  have := congrArg List.length (start_positions_values l V)
  simpa using this

lemma decode_routing_eq (ind : List ℕ) (V : ℕ) :
    decode_routing ind V
      = ((slices (rotate0 ind) (start_positions (rotate0 ind) V)).mergeSort
          seg_le).map (fun route => route.tail.map (fun x => x - V)) := rfl

lemma seg_le_trans : ∀ a b c : List ℕ, seg_le a b → seg_le b c → seg_le a c := by
  intro a b c hab hbc
  simp only [seg_le, decide_eq_true_eq] at *
  omega

lemma seg_le_total : ∀ a b : List ℕ, seg_le a b || seg_le b a := by
  intro a b
  simp only [seg_le]
  by_cases h : a.headD 0 ≤ b.headD 0 <;> simp [h] <;> omega

/-- **C4.**  For every permutation of `[0, num_vehicles + num_targets)` with
`num_vehicles ≥ 1`, `__decode_routing` returns exactly `num_vehicles` routes;
route `k` is a contiguous segment of the rotated genome led by separator
value `k`, with the separator stripped and every remaining value shifted down
by `num_vehicles`; every route is duplicate-free with entries in
`[0, num_targets)`; and every target index appears in at most one route
(i.e. in exactly one route or in none). -/
theorem decode_routing_correct (V T : ℕ) (ind : List ℕ) (hV : 1 ≤ V)
    (hperm : ind.Perm (List.range (V + T))) :
    (decode_routing ind V).length = V
    ∧ (∀ k, k < V → ∃ s, s <:+: rotate0 ind ∧ s.head? = some k ∧
        (decode_routing ind V).getD k [] = s.tail.map (fun x => x - V))
    ∧ (∀ r ∈ decode_routing ind V, r.Nodup ∧ ∀ t ∈ r, t < T)
    ∧ (∀ t : ℕ, (decode_routing ind V).countP (fun r => t ∈ r) ≤ 1) := by
  classical
  set R := rotate0 ind with hR
  set starts := start_positions R V with hstarts
  set segs := slices R starts with hsegs
  set sortedSegs := segs.mergeSort seg_le with hsorted
  have hdec : decode_routing ind V
      = sortedSegs.map (fun route => route.tail.map (fun x => x - V)) :=
    decode_routing_eq ind V
  -- basic facts about the rotated genome
  have hpermR : R.Perm ind := rotate0_perm ind
  have hpermRrange : R.Perm (List.range (V + T)) := hpermR.trans hperm
  have hNodupR : R.Nodup := hpermRrange.nodup_iff.mpr (List.nodup_range _)
  have h0ind : 0 ∈ ind := hperm.mem_iff.mpr (List.mem_range.mpr (by omega))
  -- facts about the start positions
  have hchain : starts.Chain' (· < ·) := (start_positions_sorted R V).chain'
  have hbound : ∀ i ∈ starts, i < R.length :=
    fun i hi => start_positions_lt_length hi
  have h0starts : 0 ∈ starts :=
    mem_start_positions.mpr ⟨0, rotate0_getElem?_zero h0ind,
      by omega⟩
  -- the lists of separator values
  have hvals : starts.map (fun i => R.getD i 0)
      = R.filter (fun x => x ∈ start_ints V) := start_positions_values R V
  have hfilter : (R.filter (fun x => x ∈ start_ints V)).Perm (List.range V) := by
    have h1 : (R.filter (fun x => x ∈ start_ints V)).Perm
        ((List.range (V + T)).filter (fun x => x ∈ start_ints V)) :=
      hpermRrange.filter _
    rw [filter_start_ints_range] at h1
    exact h1
  -- number of routes
  have hlenstarts : starts.length = V := by
    rw [hstarts, length_start_positions]
    rw [hfilter.length_eq, List.length_range]
  have hlensegs : segs.length = starts.length := slices_length R starts
  have hlensorted : sortedSegs.length = segs.length := by
    rw [hsorted, List.length_mergeSort]
  have hlen : (decode_routing ind V).length = V := by
    rw [hdec, List.length_map, hlensorted, hlensegs, hlenstarts]
  -- heads of the sorted segments are exactly 0, 1, ..., V-1 in order
  have hheads : segs.map (fun t => t.headD 0)
      = starts.map (fun i => R.getD i 0) := slices_head R starts hchain hbound
  have hpermheads : (sortedSegs.map (fun t => t.headD 0)).Perm (List.range V) := by
    have h1 : sortedSegs.Perm segs := List.mergeSort_perm segs seg_le
    exact ((h1.map _).trans (by rw [hheads, hvals])).trans hfilter
  have hsortheads : (sortedSegs.map (fun t => t.headD 0)).Sorted (· ≤ ·) := by
    have hpw := @List.sorted_mergeSort (List ℕ) seg_le seg_le_trans seg_le_total segs
    rw [← hsorted] at hpw
    exact List.Pairwise.map _ (fun a b hab => by
      simpa [seg_le, decide_eq_true_eq] using hab) hpw
  have hheadsEq : sortedSegs.map (fun t => t.headD 0) = List.range V :=
    List.eq_of_perm_of_sorted hpermheads hsortheads (List.sorted_le_range V)
  -- membership transfer and segment facts
  have hmm : ∀ s ∈ sortedSegs, s ∈ segs := by
    intro s hs
    exact (List.mergeSort_perm segs seg_le).mem_iff.mp hs
  have hinfx : ∀ s ∈ segs, s <:+: R := fun s hs => slices_infix R starts s hs
  have hnenil : ∀ s ∈ segs, s ≠ [] := slices_ne_nil R starts hchain hbound
  have htailns : ∀ s ∈ segs, ∀ x ∈ s.tail, ¬ (x ∈ start_ints V) :=
    slices_tail_not_start R V [] starts (by simp)
  have htailge : ∀ s ∈ segs, ∀ x ∈ s.tail, V ≤ x := by
    intro s hs x hx
    have := htailns s hs x hx
    rw [mem_start_ints] at this
    omega
  have htailmemR : ∀ s ∈ segs, ∀ x ∈ s.tail, x ∈ R := by
    intro s hs x hx
    exact (hinfx s hs).sublist.subset (List.tail_sublist s |>.subset hx)
  have htaillt : ∀ s ∈ segs, ∀ x ∈ s.tail, x < V + T := by
    intro s hs x hx
    have := hpermRrange.mem_iff.mp (htailmemR s hs x hx)
    exact List.mem_range.mp this
  refine ⟨hlen, ?_, ?_, ?_⟩
  · -- route k is segment k, stripped and shifted
    intro k hk
    have hk' : k < sortedSegs.length := by
      rw [hlensorted, hlensegs, hlenstarts]; exact hk
    refine ⟨sortedSegs[k], hinfx _ (hmm _ (sortedSegs.getElem_mem hk')), ?_, ?_⟩
    · have hhd : sortedSegs[k].headD 0 = k := by
        have hmapk : k < (sortedSegs.map (fun t => t.headD 0)).length := by
          rw [List.length_map]; exact hk'
        have h1 := List.getElem_of_eq hheadsEq hmapk
        rw [List.getElem_map] at h1
        rw [h1]
        exact List.getElem_range _ _
      rw [head?_eq_some_headD (hnenil _ (hmm _ (sortedSegs.getElem_mem hk'))), hhd]
    · rw [hdec]
      rw [List.getD_eq_getElem _ _ (by rw [List.length_map]; exact hk')]
      rw [List.getElem_map]
  · -- each route is duplicate-free with in-range targets
    intro r hr
    rw [hdec] at hr
    obtain ⟨s, hsmem, rfl⟩ := List.mem_map.mp hr
    have hsegmem : s ∈ segs := hmm s hsmem
    have hnodups : s.Nodup :=
      List.Nodup.sublist (hinfx s hsegmem).sublist hNodupR
    have hnoduptail : s.tail.Nodup := List.Nodup.sublist (List.tail_sublist s) hnodups
    constructor
    · apply List.Nodup.map_on _ hnoduptail
      intro x hx y hy hxy
      have hxV := htailge s hsegmem x hx
      have hyV := htailge s hsegmem y hy
      omega
    · intro t ht
      obtain ⟨x, hxmem, rfl⟩ := List.mem_map.mp ht
      have h1 := htailge s hsegmem x hxmem
      have h2 := htaillt s hsegmem x hxmem
      omega
  · -- every target appears in at most one route
    intro t
    rw [hdec]
    rw [List.countP_map]
    have hcnt1 : sortedSegs.countP
        ((fun r => decide (t ∈ r)) ∘ (fun route => route.tail.map (fun x => x - V)))
        = segs.countP
        ((fun r => decide (t ∈ r)) ∘ (fun route => route.tail.map (fun x => x - V))) :=
      (List.mergeSort_perm segs seg_le).countP_eq _
    rw [hcnt1]
    have hcnt2 : segs.countP
        ((fun r => decide (t ∈ r)) ∘ (fun route => route.tail.map (fun x => x - V)))
        ≤ segs.countP (fun s => t + V ∈ s) := by
      apply List.countP_mono_left
      intro s hs hmem
      simp only [Function.comp, decide_eq_true_eq, List.mem_map] at hmem
      obtain ⟨x, hx, hxt⟩ := hmem
      have hxV := htailge s hs x hx
      have hxeq : x = t + V := by omega
      have hxs : x ∈ s := (List.tail_sublist s).subset hx
      rw [hxeq] at hxs
      simpa using hxs
    have hcnt3 : segs.countP (fun s => t + V ∈ s) ≤ segs.flatten.count (t + V) :=
      countP_mem_le_count_flatten (t + V) segs
    have hflat : segs.flatten = R := by
      rw [hsegs, slices_flatten R starts hchain, starts_headD_zero h0starts]
      simp
    have hcnt4 : segs.flatten.count (t + V) ≤ 1 := by
      rw [hflat]
      exact List.nodup_iff_count_le_one.mp hNodupR (t + V)
    omega

/-- Witness for C4 at a concrete genome: two vehicles, three targets,
genome `[3, 1, 4, 0, 2]`. -/
theorem decode_routing_correct_witness :
    (1 ≤ 2 ∧ [3, 1, 4, 0, 2].Perm (List.range (2 + 3)))
    ∧ ((decode_routing [3, 1, 4, 0, 2] 2).length = 2
      ∧ (∀ k, k < 2 → ∃ s, s <:+: rotate0 [3, 1, 4, 0, 2] ∧ s.head? = some k ∧
          (decode_routing [3, 1, 4, 0, 2] 2).getD k [] = s.tail.map (fun x => x - 2))
      ∧ (∀ r ∈ decode_routing [3, 1, 4, 0, 2] 2, r.Nodup ∧ ∀ t ∈ r, t < 3)
      ∧ (∀ t : ℕ, (decode_routing [3, 1, 4, 0, 2] 2).countP (fun r => t ∈ r) ≤ 1)) :=
  ⟨⟨by decide, by decide⟩,
    decode_routing_correct 2 3 [3, 1, 4, 0, 2] (by decide) (by decide)⟩

/-! ## Transfer cost model and Monte-Carlo uncertainty sampler
(`Mission.__calc_transfer_costs`, `__calc_raan_wait`, `__low_thrust_transfer`,
`__impulse_transfer`, `calc_raan_dot`; mission.py lines 464-601 and 785-855).

The floating point formulas are embedded over `ℝ`.  `random.uniform` is an
explicit function argument; `np.mean`/`np.std` are the population mean and
standard deviation. -/

noncomputable section NumericModel

open scoped Classical

/-- `MU_E = Earth.k` in km³/s² (mission.py line 18, value from poliastro). -/
def MU_E : ℝ := 398600.4418

/-- `R_E = Earth.R_mean` in km (mission.py line 19, value from poliastro). -/
def R_E : ℝ := 6371.0087714

/-- `J2 = 1.08262668e-3` (mission.py line 20). -/
def J2 : ℝ := 1.08262668e-3

/-- `np.deg2rad`. -/
def deg2rad (x : ℝ) : ℝ := x * Real.pi / 180

/-- `np.rad2deg`. -/
def rad2deg (x : ℝ) : ℝ := x * 180 / Real.pi

/-- `Mission.calc_raan_dot(smj_ax, inc)` (lines 841-855): J2 nodal precession
rate in degrees per second. -/
def calc_raan_dot (smj_ax inc : ℝ) : ℝ :=
  rad2deg (-3/2 * J2 * R_E^2 / smj_ax^2 * Real.sqrt (MU_E / smj_ax^3)
    * Real.cos (deg2rad inc))

/-- `Mission.__low_thrust_transfer` (lines 817-838): Edelbaum delta-v,
rocket-equation propellant mass, and thrust-limited time of flight. -/
def low_thrust_transfer (a_0 a_f inc_0 inc_f mass isp thrust : ℝ) : ℝ × ℝ × ℝ :=
  let v_1 := Real.sqrt (MU_E / a_0)
  let v_2 := Real.sqrt (MU_E / a_f)
  let delta_v := Real.sqrt (v_1^2 + v_2^2 -
    2*v_1*v_2*Real.cos (deg2rad |inc_0 - inc_f| * Real.pi / 2))
  let prop_mass := mass * (1 - Real.exp (-delta_v * 1000 / isp / 9.81))
  let tof := delta_v * 1000 / thrust * (mass - 0.5 * prop_mass)
  (delta_v, prop_mass, tof)

/-- `Mission.__impulse_transfer` (lines 785-814): two-burn transfer with the
inclination change on the lower-velocity burn, Hohmann half-period ToF. -/
def impulse_transfer (a_0 a_f inc_0 inc_f mass isp : ℝ) : ℝ × ℝ × ℝ :=
  let v_a_1 := Real.sqrt (MU_E / a_0)
  let v_a_2 := Real.sqrt (2 * MU_E / a_0 - 2 * MU_E / (a_0 + a_f))
  let v_b_1 := Real.sqrt (2 * MU_E / a_f - 2 * MU_E / (a_0 + a_f))
  let v_b_2 := Real.sqrt (MU_E / a_f)
  let dv_1 := if a_f > a_0 then |v_a_1 - v_a_2|
    else Real.sqrt (v_a_1^2 + v_a_2^2 -
      2*v_a_1*v_a_2*Real.cos (deg2rad |inc_0 - inc_f|))
  let dv_2 := if a_f > a_0 then Real.sqrt (v_b_1^2 + v_b_2^2 -
      2*v_b_1*v_b_2*Real.cos (deg2rad |inc_0 - inc_f|))
    else |v_b_1 - v_b_2|
  let delta_v := dv_1 + dv_2
  let prop_mass := mass * (1 - Real.exp (-delta_v * 1000 / isp / 9.81))
  let tof := Real.pi * Real.sqrt (((a_0 + a_f) / 2)^3 / MU_E)
  (delta_v, prop_mass, tof)

/-- The transfer-model selection of `__calc_transfer_costs` (lines 510-519):
two sequential `if` statements with guards `isp > 500` and `isp < 500`.  The
guards are mutually exclusive; when `isp = 500` neither branch assigns
`delta_v`, `prop_mass`, `tof`, and the subsequent `.append` raises
`UnboundLocalError` — modeled by `none`. -/
def transfer_eval (a_0 a_f inc_0 inc_f mass thrust isp : ℝ) : Option (ℝ × ℝ × ℝ) :=
  if isp > 500 then some (low_thrust_transfer a_0 a_f inc_0 inc_f mass isp thrust)
  else if isp < 500 then some (impulse_transfer a_0 a_f inc_0 inc_f mass isp)
  else none

/-- The sequential collection of per-sample results of the Monte-Carlo loop:
the loop body is executed once per sample in order, and a failing body
(`UnboundLocalError`) aborts the whole call — all-or-nothing, modeled by
`Option`. -/
def collect_samples {β : Type} (f : ℕ → Option β) : List ℕ → Option (List β)
  | [] => some []
  | s :: rest =>
    match f s, collect_samples f rest with
    | some b, some bs => some (b :: bs)
    | _, _ => none

/-- `np.mean`. -/
def npmean (l : List ℝ) : ℝ := l.sum / l.length

/-- `np.std` (population standard deviation). -/
def npstd (l : List ℝ) : ℝ :=
  Real.sqrt ((l.map (fun x => (x - npmean l)^2)).sum / l.length)

/-- The aggregation `np.mean(monte) + np.std(monte) * conservatism`
(lines 526-529 and 599). -/
def mc_aggregate (l : List ℝ) (k : ℝ) : ℝ := npmean l + npstd l * k

/-- One iteration of the Monte-Carlo loop of `__calc_transfer_costs`
(lines 492-519): scale the element standard deviations by the conservatism
factor, draw each element uniformly from `[mean - unc, mean + unc]`, then
evaluate the selected transfer model. -/
def transfer_sample (draw : ℕ → ℝ → ℝ → ℝ) (k : ℝ)
    (orbit1_mean orbit1_unc orbit2_mean orbit2_unc : List ℝ)
    (mass thrust isp : ℝ) : Option (ℝ × ℝ × ℝ) :=
  let a_0_mean := orbit1_mean.getD 0 0
  let a_0_unc := orbit1_unc.getD 0 0 * k
  let inc_0_mean := orbit1_mean.getD 1 0
  let inc_0_unc := orbit1_unc.getD 1 0 * k
  let a_f_mean := orbit2_mean.getD 0 0
  let a_f_unc := orbit2_unc.getD 0 0 * k
  let inc_f_mean := orbit2_mean.getD 1 0
  let inc_f_unc := orbit2_unc.getD 1 0 * k
  let a_0 := draw 0 (a_0_mean - a_0_unc) (a_0_mean + a_0_unc)
  let a_f := draw 1 (a_f_mean - a_f_unc) (a_f_mean + a_f_unc)
  let inc_0 := draw 2 (inc_0_mean - inc_0_unc) (inc_0_mean + inc_0_unc)
  let inc_f := draw 3 (inc_f_mean - inc_f_unc) (inc_f_mean + inc_f_unc)
  transfer_eval a_0 a_f inc_0 inc_f mass thrust isp

/-- `Mission.__calc_transfer_costs` (lines 464-532): Monte-Carlo loop over
`monte_carlo_size` samples, aggregated as `mean + std·conservatism` per
component.  The result is `none` when a sample fails to select a transfer
model (`isp = 500`). -/
def calc_transfer_costs (draws : ℕ → ℕ → ℝ → ℝ → ℝ) (monte_carlo_size : ℕ)
    (k : ℝ) (o1 o1u o2 o2u : List ℝ) (mass thrust isp : ℝ) :
    Option (ℝ × ℝ × ℝ) :=
  (collect_samples
      (fun s => transfer_sample (draws s) k o1 o1u o2 o2u mass thrust isp)
      (List.range monte_carlo_size)).map
    (fun samples =>
      (mc_aggregate (samples.map (fun t => t.1)) k,
       mc_aggregate (samples.map (fun t => t.2.1)) k,
       mc_aggregate (samples.map (fun t => t.2.2)) k))

/-- The lapping adjustment of `__calc_raan_wait` (lines 584-589), with the
branch condition translated exactly as Python parses it: the chained
comparison `raan_0 > raan_f == raan_dot_0 > raan_dot_f` means
`raan_0 > raan_f and raan_f == raan_dot_0 and raan_dot_0 > raan_dot_f`. -/
def raan_delta_code (raan_0 raan_f raan_dot_0 raan_dot_f raan_offset : ℝ) : ℝ :=
  if raan_0 > raan_f ∧ raan_f = raan_dot_0 ∧ raan_dot_0 > raan_dot_f then
    |360 - |raan_0 - raan_f| - raan_offset|
  else
    abs (|raan_0 - raan_f| - raan_offset)

/-- The lapping adjustment as the spec reads the intent: applied exactly when
the orbit that starts ahead in RAAN is also the one precessing faster,
written as two explicit boolean clauses. -/
def raan_delta_spec (raan_0 raan_f raan_dot_0 raan_dot_f raan_offset : ℝ) : ℝ :=
  if raan_0 > raan_f ∧ raan_dot_0 > raan_dot_f then
    |360 - |raan_0 - raan_f| - raan_offset|
  else
    abs (|raan_0 - raan_f| - raan_offset)

/-- The numerator `raan_delta` of the wait-time quotient (lines 580-589),
evaluated on the sampled orbital elements. -/
def raan_wait_numer (a_0 a_f inc_0 inc_f raan_0 raan_f transfer_tof : ℝ) : ℝ :=
  let raan_dot_0 := calc_raan_dot a_0 inc_0
  let raan_dot_tr := calc_raan_dot ((a_0 + a_f)/2) ((inc_0 + inc_f)/2)
  let raan_dot_f := calc_raan_dot a_f inc_f
  let raan_offset := |raan_dot_tr - raan_dot_f| * transfer_tof
  raan_delta_code raan_0 raan_f raan_dot_0 raan_dot_f raan_offset

/-- The denominator `raan_dot_delta = |raan_dot_0 - raan_dot_f|` (line 592). -/
def raan_wait_denom (a_0 a_f inc_0 inc_f : ℝ) : ℝ :=
  |calc_raan_dot a_0 inc_0 - calc_raan_dot a_f inc_f|

/-- Lines 576-595 of `__calc_raan_wait` applied to the sampled elements:
the wait time is the unguarded quotient `raan_delta / raan_dot_delta`. -/
def raan_wait_core (a_0 a_f inc_0 inc_f raan_0 raan_f transfer_tof : ℝ) : ℝ :=
  raan_wait_numer a_0 a_f inc_0 inc_f raan_0 raan_f transfer_tof
    / raan_wait_denom a_0 a_f inc_0 inc_f

/-- One iteration of the Monte-Carlo loop of `__calc_raan_wait`
(lines 550-597). -/
def raan_wait_sample (draw : ℕ → ℝ → ℝ → ℝ) (k : ℝ)
    (orbit1_mean orbit1_unc orbit2_mean orbit2_unc : List ℝ)
    (transfer_tof : ℝ) : ℝ :=
  let a_0_mean := orbit1_mean.getD 0 0
  let a_0_unc := orbit1_unc.getD 0 0 * k
  let inc_0_mean := orbit1_mean.getD 1 0
  let inc_0_unc := orbit1_unc.getD 1 0 * k
  let raan_0_mean := orbit1_mean.getD 2 0
  let raan_0_unc := orbit1_unc.getD 2 0 * k
  let a_f_mean := orbit2_mean.getD 0 0
  let a_f_unc := orbit2_unc.getD 0 0 * k
  let inc_f_mean := orbit2_mean.getD 1 0
  let inc_f_unc := orbit2_unc.getD 1 0 * k
  let raan_f_mean := orbit2_mean.getD 2 0
  let raan_f_unc := orbit2_unc.getD 2 0 * k
  let a_0 := draw 0 (a_0_mean - a_0_unc) (a_0_mean + a_0_unc)
  let a_f := draw 1 (a_f_mean - a_f_unc) (a_f_mean + a_f_unc)
  let inc_0 := draw 2 (inc_0_mean - inc_0_unc) (inc_0_mean + inc_0_unc)
  let inc_f := draw 3 (inc_f_mean - inc_f_unc) (inc_f_mean + inc_f_unc)
  let raan_0 := draw 4 (raan_0_mean - raan_0_unc) (raan_0_mean + raan_0_unc)
  let raan_f := draw 5 (raan_f_mean - raan_f_unc) (raan_f_mean + raan_f_unc)
  raan_wait_core a_0 a_f inc_0 inc_f raan_0 raan_f transfer_tof

/-- `Mission.__calc_raan_wait` (lines 535-601). -/
def calc_raan_wait (draws : ℕ → ℕ → ℝ → ℝ → ℝ) (monte_carlo_size : ℕ) (k : ℝ)
    (o1 o1u o2 o2u : List ℝ) (transfer_tof : ℝ) : ℝ :=
  mc_aggregate
    ((List.range monte_carlo_size).map
      (fun s => raan_wait_sample (draws s) k o1 o1u o2 o2u transfer_tof)) k

end NumericModel

/-! ### Monte-Carlo aggregation lemmas -/

lemma npmean_replicate {n : ℕ} (hn : 1 ≤ n) (x : ℝ) :
    npmean (List.replicate n x) = x := by
  unfold npmean
  rw [List.sum_replicate, List.length_replicate, nsmul_eq_mul]
  have hne : (n : ℝ) ≠ 0 := Nat.cast_ne_zero.mpr (by omega)
  field_simp

lemma npstd_replicate {n : ℕ} (hn : 1 ≤ n) (x : ℝ) :
    npstd (List.replicate n x) = 0 := by
  unfold npstd
  rw [npmean_replicate hn, List.map_replicate]
  simp

lemma mc_aggregate_replicate {n : ℕ} (hn : 1 ≤ n) (x k : ℝ) :
    mc_aggregate (List.replicate n x) k = x := by
  unfold mc_aggregate
  rw [npmean_replicate hn, npstd_replicate hn]
  ring

lemma mc_aggregate_singleton (x k : ℝ) : mc_aggregate [x] k = x := by
  have := mc_aggregate_replicate (n := 1) (by omega) x k
  simpa using this

lemma getD_eq_zero_of_all {u : List ℝ} (h : ∀ x ∈ u, x = 0) (j : ℕ) :
    u.getD j 0 = 0 := by
  rw [List.getD_eq_getElem?_getD]
  cases hj : u[j]? with
  | none => rfl
  | some v =>
    have : v ∈ u := List.getElem?_mem hj
    simp [h v this]

lemma collect_samples_const_none {β : Type} (f : ℕ → Option β)
    (hf : ∀ x, f x = none) :
    ∀ l : List ℕ, l ≠ [] → collect_samples f l = none
  | [], h => absurd rfl h
  | a :: l, _ => by simp [collect_samples, hf]

lemma collect_samples_const_some {β : Type} (f : ℕ → Option β) (c : β)
    (hf : ∀ x, f x = some c) :
    ∀ l : List ℕ, collect_samples f l = some (List.replicate l.length c)
  | [] => by simp [collect_samples]
  | a :: l => by
    simp [collect_samples, hf, collect_samples_const_some f c hf l,
      List.replicate_succ]

/-! ### RAAN-wait degeneracy (C2) and the lapping branch condition (C3) -/

/-- **C2 (amended).**  When the origin and destination orbits have the same
sampled semi-major axis and inclination, the precession-rate denominator
`raan_dot_delta = |raan_dot_0 - raan_dot_f|` of `__calc_raan_wait` is exactly
`0`, and the computed wait time is the unguarded quotient
`raan_delta / 0` — the function contains no check on the denominator and
reports no error (under IEEE float semantics the quotient is `inf`/`nan`
and propagates into the returned wait and the fitness). -/
theorem raan_wait_equal_rates_divides (a inc raan_0 raan_f ttf : ℝ) :
    raan_wait_denom a a inc inc = 0
    ∧ raan_wait_core a a inc inc raan_0 raan_f ttf
        = raan_wait_numer a a inc inc raan_0 raan_f ttf / 0 := by
  have hd : raan_wait_denom a a inc inc = 0 := by
    unfold raan_wait_denom
    simp
  refine ⟨hd, ?_⟩
  unfold raan_wait_core
  rw [hd]

/-- **C2 (counterexample).**  At identical endpoint elements
(`a = 7000 km`, `inc = 50°`, zero uncertainty, RAANs 0° and 100°, zero
transfer time, one Monte-Carlo sample, conservatism 2) the claim "a fatal
per-leg error is reported rather than dividing" is false: the denominator is
exactly `0`, the numerator is `100`, the per-leg wait is computed as the
quotient `100 / 0` and is aggregated into the returned value — no error
path exists. -/
theorem raan_wait_zero_denominator_cex :
    raan_wait_denom 7000 7000 50 50 = 0
    ∧ raan_wait_numer 7000 7000 50 50 0 100 0 = 100
    ∧ raan_wait_core 7000 7000 50 50 0 100 0 = 100 / 0
    ∧ calc_raan_wait (fun _ _ lo _ => lo) 1 2 [7000, 50, 0] [0, 0, 0]
        [7000, 50, 100] [0, 0, 0] 0 = mc_aggregate [100 / 0] 2 := by
  have h1 : raan_wait_denom 7000 7000 50 50 = 0 := by
    unfold raan_wait_denom
    simp
  have h2 : raan_wait_numer 7000 7000 50 50 0 100 0 = 100 := by
    simp only [raan_wait_numer, raan_delta_code]
    rw [if_neg]
    · norm_num
    · rintro ⟨hgt, -, -⟩
      norm_num at hgt
  have h3 : raan_wait_core 7000 7000 50 50 0 100 0 = 100 / 0 := by
    unfold raan_wait_core
    rw [h1, h2]
  refine ⟨h1, h2, h3, ?_⟩
  have hs : raan_wait_sample ((fun (_ _ : ℕ) (lo _ : ℝ) => lo) 0) 2
      [7000, 50, 0] [0, 0, 0] [7000, 50, 100] [0, 0, 0] 0
      = raan_wait_core 7000 7000 50 50 0 100 0 := by
    simp only [raan_wait_sample, List.getD_cons_zero, List.getD_cons_succ]
    norm_num
  unfold calc_raan_wait
  rw [show List.range 1 = [0] by decide, List.map_singleton, hs, h3]

/-- **C3.**  The lapping branch condition of `__calc_raan_wait` (line 586) is
the Python chained comparison
`raan_0 > raan_f and raan_f == raan_dot_0 and raan_dot_0 > raan_dot_f`, not
the intended "ahead in RAAN and precessing faster".  At
`raan_0 = 200°, raan_f = 100°, raan_dot_0 = -0.01, raan_dot_f = -0.02`
(origin ahead and precessing faster, offset 0) the code takes the unadjusted
branch and returns `100`, while the intended two-clause condition applies the
360° lapping adjustment and returns `260`. -/
theorem lapping_condition_chained_cex :
    raan_delta_code 200 100 (-1/100) (-2/100) 0 = 100
    ∧ raan_delta_spec 200 100 (-1/100) (-2/100) 0 = 260
    ∧ raan_delta_code 200 100 (-1/100) (-2/100) 0
        ≠ raan_delta_spec 200 100 (-1/100) (-2/100) 0 := by
  have h1 : raan_delta_code 200 100 (-1/100) (-2/100) 0 = 100 := by
    unfold raan_delta_code
    rw [if_neg]
    · norm_num
    · rintro ⟨-, heq, -⟩
      norm_num at heq
  have h2 : raan_delta_spec 200 100 (-1/100) (-2/100) 0 = 260 := by
    unfold raan_delta_spec
    rw [if_pos (by norm_num)]
    norm_num
  exact ⟨h1, h2, by rw [h1, h2]; norm_num⟩

/-! ### Zero-uncertainty determinism (C6), conservatism monotonicity (C7),
and the `isp = 500` model-selection gap (C10) -/

/-- **C6.**  If the conservatism factor is `0`, or every orbital-element
standard deviation of both endpoint orbits is `0`, then for any Monte-Carlo
sample count `≥ 1` and any realization of the random draws (subject only to
`uniform(a, a) = a`), `__calc_transfer_costs` and `__calc_raan_wait` return
exactly the single deterministic evaluation of the selected transfer model
(resp. of the RAAN-wait formula) at the mean orbital elements — independent
of the sample count and of the conservatism factor. -/
theorem zero_uncertainty_deterministic
    (draws : ℕ → ℕ → ℝ → ℝ → ℝ) (hdraw : ∀ s j x, draws s j x x = x)
    (N : ℕ) (hN : 1 ≤ N) (k : ℝ) (o1 o1u o2 o2u : List ℝ)
    (mass thrust isp ttf : ℝ)
    (hdeg : k = 0 ∨ ((∀ x ∈ o1u, x = 0) ∧ (∀ x ∈ o2u, x = 0))) :
    calc_transfer_costs draws N k o1 o1u o2 o2u mass thrust isp
        = transfer_eval (o1.getD 0 0) (o2.getD 0 0) (o1.getD 1 0) (o2.getD 1 0)
            mass thrust isp
    ∧ calc_raan_wait draws N k o1 o1u o2 o2u ttf
        = raan_wait_core (o1.getD 0 0) (o2.getD 0 0) (o1.getD 1 0)
            (o2.getD 1 0) (o1.getD 2 0) (o2.getD 2 0) ttf := by
  have hzero : ∀ u : List ℝ, u = o1u ∨ u = o2u → ∀ j, u.getD j 0 * k = 0 := by
    intro u hu j
    rcases hdeg with rfl | ⟨ha, hb⟩
    · ring
    · rcases hu with rfl | rfl
      · rw [getD_eq_zero_of_all ha]
        ring
      · rw [getD_eq_zero_of_all hb]
        ring
  have h10 := hzero o1u (Or.inl rfl) 0
  have h11 := hzero o1u (Or.inl rfl) 1
  have h12 := hzero o1u (Or.inl rfl) 2
  have h20 := hzero o2u (Or.inr rfl) 0
  have h21 := hzero o2u (Or.inr rfl) 1
  have h22 := hzero o2u (Or.inr rfl) 2
  have hts : ∀ s, transfer_sample (draws s) k o1 o1u o2 o2u mass thrust isp
      = transfer_eval (o1.getD 0 0) (o2.getD 0 0) (o1.getD 1 0) (o2.getD 1 0)
          mass thrust isp := by
    intro s
    simp only [transfer_sample, h10, h11, h20, h21, sub_zero, add_zero, hdraw]
  have hrs : ∀ s, raan_wait_sample (draws s) k o1 o1u o2 o2u ttf
      = raan_wait_core (o1.getD 0 0) (o2.getD 0 0) (o1.getD 1 0) (o2.getD 1 0)
          (o1.getD 2 0) (o2.getD 2 0) ttf := by
    intro s
    simp only [raan_wait_sample, h10, h11, h12, h20, h21, h22, sub_zero,
      add_zero, hdraw]
  constructor
  · unfold calc_transfer_costs
    cases hv : transfer_eval (o1.getD 0 0) (o2.getD 0 0) (o1.getD 1 0)
        (o2.getD 1 0) mass thrust isp with
    | none =>
      rw [collect_samples_const_none _ (fun s => by rw [hts s, hv])
        (List.range N) (fun h => by rw [List.range_eq_nil] at h; omega)]
      rfl
    | some c =>
      rw [collect_samples_const_some _ c (fun s => by rw [hts s, hv])
        (List.range N)]
      rcases c with ⟨dv, pm, tof⟩
      simp only [Option.map_some', List.length_range, List.map_replicate]
      rw [mc_aggregate_replicate hN, mc_aggregate_replicate hN,
        mc_aggregate_replicate hN]
  · unfold calc_raan_wait
    have hmap : (List.range N).map
        (fun s => raan_wait_sample (draws s) k o1 o1u o2 o2u ttf)
        = List.replicate N (raan_wait_core (o1.getD 0 0) (o2.getD 0 0)
            (o1.getD 1 0) (o2.getD 1 0) (o1.getD 2 0) (o2.getD 2 0) ttf) := by
      have h := List.eq_replicate_of_mem
        (l := (List.range N).map
          (fun s => raan_wait_sample (draws s) k o1 o1u o2 o2u ttf))
        (a := raan_wait_core (o1.getD 0 0) (o2.getD 0 0) (o1.getD 1 0)
          (o2.getD 1 0) (o1.getD 2 0) (o2.getD 2 0) ttf) ?_
      · simpa using h
      · intro b hb
        obtain ⟨s, -, rfl⟩ := List.mem_map.mp hb
        exact hrs s
    rw [hmap, mc_aggregate_replicate hN]

/-- Witness for C6 at one sample, conservatism 0, nonzero uncertainties. -/
theorem zero_uncertainty_deterministic_witness :
    calc_transfer_costs (fun _ _ lo _ => lo) 1 0 [7000, 53, 10] [1, 1, 1]
        [7100, 54, 20] [1, 1, 1] 500 1 1000
      = transfer_eval 7000 7100 53 54 500 1 1000
    ∧ calc_raan_wait (fun _ _ lo _ => lo) 1 0 [7000, 53, 10] [1, 1, 1]
        [7100, 54, 20] [1, 1, 1] 5
      = raan_wait_core 7000 7100 53 54 10 20 5 := by
  have h := zero_uncertainty_deterministic (fun _ _ lo _ => lo)
    (fun _ _ _ => rfl) 1 (by norm_num) 0 [7000, 53, 10] [1, 1, 1]
    [7100, 54, 20] [1, 1, 1] 500 1 1000 5 (Or.inl rfl)
  simpa using h

/-- **C7 (amended).**  For any fixed list of Monte-Carlo samples the reported
aggregate `mean + k · std` is monotone non-decreasing in the conservatism
factor `k`, because the sample standard deviation is non-negative.  (The full
claim fails: `k` also scales the sampling intervals, see the
counterexample.) -/
theorem mc_aggregate_monotone (l : List ℝ) (k k' : ℝ) (h : k ≤ k') :
    mc_aggregate l k ≤ mc_aggregate l k' := by
  unfold mc_aggregate
  have hstd : 0 ≤ npstd l := Real.sqrt_nonneg _
  have := mul_le_mul_of_nonneg_left h hstd
  linarith

/-- Witness for C7 (amended) on a concrete sample list. -/
theorem mc_aggregate_monotone_witness :
    (0:ℝ) ≤ 1 ∧ mc_aggregate [3, 4] 0 ≤ mc_aggregate [3, 4] 1 :=
  ⟨by norm_num, mc_aggregate_monotone [3, 4] 0 1 (by norm_num)⟩

/-- **C10.**  With specific impulse exactly `500 s`, neither the low-thrust
branch (`isp > 500`) nor the impulsive branch (`isp < 500`) of
`__calc_transfer_costs` assigns `delta_v`/`prop_mass`/`tof`; for every sample
count `≥ 1` the evaluation fails (an `UnboundLocalError` escaping the fitness
function, modeled by `none`), for every draw realization and input. -/
theorem isp_500_unbound_local (draws : ℕ → ℕ → ℝ → ℝ → ℝ) (N : ℕ) (hN : 1 ≤ N)
    (k : ℝ) (o1 o1u o2 o2u : List ℝ) (mass thrust : ℝ) :
    calc_transfer_costs draws N k o1 o1u o2 o2u mass thrust 500 = none := by
  unfold calc_transfer_costs
  rw [collect_samples_const_none _
    (fun s => by
      simp only [transfer_sample, transfer_eval]
      rw [if_neg (by norm_num), if_neg (by norm_num)])
    (List.range N) (fun h => by rw [List.range_eq_nil] at h; omega)]
  rfl

/-- Witness for C10 at one sample with concrete inputs. -/
theorem isp_500_unbound_local_witness :
    calc_transfer_costs (fun _ _ lo _ => lo) 1 2 [7000, 50, 0] [1, 1, 1]
        [7100, 60, 10] [1, 1, 1] 800 (1/2) 500 = none :=
  isp_500_unbound_local (fun _ _ lo _ => lo) 1 (by norm_num) 2 [7000, 50, 0]
    [1, 1, 1] [7100, 60, 10] [1, 1, 1] 800 (1/2)

lemma MU_E_pos : (0:ℝ) < MU_E := by norm_num [MU_E]

lemma collect_samples_one {β : Type} (f : ℕ → Option β) :
    collect_samples f (List.range 1) = (f 0).map (fun b => [b]) := by
  rw [show List.range 1 = [0] by decide]
  cases h : f 0 <;> simp [collect_samples, h]

lemma calc_transfer_costs_single {draws : ℕ → ℕ → ℝ → ℝ → ℝ}
    {d : ℕ → ℝ → ℝ → ℝ} (hd : draws 0 = d) {k : ℝ}
    {o1 o1u o2 o2u : List ℝ} {mass thrust isp : ℝ} {c : ℝ × ℝ × ℝ}
    (h : transfer_sample d k o1 o1u o2 o2u mass thrust isp = some c) :
    calc_transfer_costs draws 1 k o1 o1u o2 o2u mass thrust isp = some c := by
  unfold calc_transfer_costs
  rw [collect_samples_one, hd, h]
  simp [mc_aggregate_singleton]

/-- The drawn elements of a one-uncertainty sample when every draw returns
the lower bound of its interval. -/
lemma transfer_sample_lo_eval (k u a0 af : ℝ) :
    transfer_sample (fun (_ : ℕ) (lo _ : ℝ) => lo) k [a0, 0, 0]
        [u, 0, 0] [af, 0, 0] [0, 0, 0] 100 1 1000
      = some (low_thrust_transfer (a0 - u * k) (af - 0 * k) (0 - 0 * k)
          (0 - 0 * k) 100 1000 1) := by
  simp only [transfer_sample, List.getD_cons_zero, List.getD_cons_succ,
    transfer_eval]
  rw [if_pos (by norm_num : (1000:ℝ) > 500)]

/-- The Edelbaum delta-v for an inclination-preserving transfer collapses to
the velocity difference. -/
lemma low_thrust_dv_same_inc (a0 af inc m isp th v1 v2 : ℝ)
    (h1 : Real.sqrt (MU_E / a0) = v1) (h2 : Real.sqrt (MU_E / af) = v2) :
    (low_thrust_transfer a0 af inc inc m isp th).1
      = Real.sqrt ((v1 - v2)^2) := by
  simp only [low_thrust_transfer]
  rw [h1, h2, sub_self, abs_zero]
  norm_num [deg2rad, Real.cos_zero]
  congr 1
  ring

/-- **C7 (counterexample).**  One Monte-Carlo sample, lower-bound draws,
origin orbit `a = MU_E` km with uncertainty `5·MU_E/9`, destination orbit
`a = MU_E/4` km exactly, equal inclinations, `isp = 1000` (low thrust): at
conservatism `k = 0` the reported delta-v is `1` km/s, at `k = 1` it is
`1/2` km/s — increasing the conservatism factor strictly decreased the
reported delta-v, because `k` also widens the sampling interval. -/
theorem conservatism_not_monotone_cex :
    (calc_transfer_costs (fun _ _ lo _ => lo) 1 0 [MU_E, 0, 0]
        [5 * MU_E / 9, 0, 0] [MU_E / 4, 0, 0] [0, 0, 0] 100 1 1000).map
        (fun t => t.1) = some 1
    ∧ (calc_transfer_costs (fun _ _ lo _ => lo) 1 1 [MU_E, 0, 0]
        [5 * MU_E / 9, 0, 0] [MU_E / 4, 0, 0] [0, 0, 0] 100 1 1000).map
        (fun t => t.1) = some (1/2)
    ∧ ¬ ((1:ℝ) ≤ 1/2) := by
  have hMU : MU_E ≠ 0 := ne_of_gt MU_E_pos
  have hsqrt4 : Real.sqrt (MU_E / (MU_E / 4)) = 2 := by
    rw [show MU_E / (MU_E / 4) = 4 by field_simp,
      show (4:ℝ) = 2^2 by norm_num, Real.sqrt_sq (by norm_num : (0:ℝ) ≤ 2)]
  refine ⟨?_, ?_, by norm_num⟩
  · have h1 := transfer_sample_lo_eval 0 (5 * MU_E / 9) MU_E (MU_E / 4)
    have h2 := @calc_transfer_costs_single (fun _ _ lo _ => lo) _ rfl _ _ _ _ _
      _ _ _ _ h1
    rw [h2]
    have hv1 : Real.sqrt (MU_E / (MU_E - 5 * MU_E / 9 * 0)) = 1 := by
      rw [show MU_E - 5 * MU_E / 9 * 0 = MU_E by ring, div_self hMU,
        Real.sqrt_one]
    have hv2 : Real.sqrt (MU_E / (MU_E / 4 - 0 * 0)) = 2 := by
      rw [show MU_E / 4 - 0 * 0 = MU_E / 4 by ring]
      exact hsqrt4
    rw [Option.map_some']
    rw [low_thrust_dv_same_inc _ _ _ _ _ _ _ _ hv1 hv2]
    rw [show ((1:ℝ) - 2)^2 = 1 by norm_num, Real.sqrt_one]
  · have h1 := transfer_sample_lo_eval 1 (5 * MU_E / 9) MU_E (MU_E / 4)
    have h2 := @calc_transfer_costs_single (fun _ _ lo _ => lo) _ rfl _ _ _ _ _
      _ _ _ _ h1
    rw [h2]
    have hv1 : Real.sqrt (MU_E / (MU_E - 5 * MU_E / 9 * 1)) = 3/2 := by
      rw [show MU_E - 5 * MU_E / 9 * 1 = 4 * MU_E / 9 by ring,
        show MU_E / (4 * MU_E / 9) = 9/4 by field_simp; ring,
        show (9/4:ℝ) = (3/2)^2 by norm_num,
        Real.sqrt_sq (by norm_num : (0:ℝ) ≤ 3/2)]
    have hv2 : Real.sqrt (MU_E / (MU_E / 4 - 0 * 1)) = 2 := by
      rw [show MU_E / 4 - 0 * 1 = MU_E / 4 by ring]
      exact hsqrt4
    rw [Option.map_some']
    rw [low_thrust_dv_same_inc _ _ _ _ _ _ _ _ hv1 hv2]
    rw [show ((3/2:ℝ) - 2)^2 = (1/2)^2 by norm_num,
      Real.sqrt_sq (by norm_num : (0:ℝ) ≤ 1/2)]

/-! ## Mission simulator (`Mission.__traverse_routes` and helpers,
mission.py lines 40-83, 114-422, 604-726)

The simulator is embedded over `ℚ`.  The numeric kernels it calls
(`__calc_transfer_costs`, `__calc_raan_wait`, `__calc_alt_drop`,
`calc_raan_dot`, and `np.exp` used in the docking propellant update) are
collected in a `Kernels` record of function arguments; the control flow,
resource accounting and state threading are translated line by line. -/

/-- The three spacecraft classes of spacecraft.py (`Picker`, `Shuttle`,
`Mothership`); role-specific behavior in the simulator dispatches on
`isinstance` checks. -/
inductive Role
  | picker
  | shuttle
  | mothership
deriving DecidableEq

/-- A single-use deorbit module carried by a `Mothership`. -/
structure DModule where
  name : String
  wet_mass : ℚ
  prop_mass : ℚ
  thrust : ℚ
  isp : ℚ
deriving DecidableEq

/-- A servicing vehicle as configured before a run (spacecraft.py): the
simulator reads these fields but never writes them. -/
structure Servicer where
  name : String
  role : Role
  wet_mass : ℚ
  dry_mass : ℚ
  prop_mass : ℚ
  thrust : ℚ
  isp : ℚ
  a_0 : ℚ
  inc_0 : ℚ
  raan_0 : ℚ
  docking_time : ℚ
  docking_dv : ℚ
  num_refuels : ℕ
  drop_off_alt : ℚ
  raan_sync_alt : ℚ
  modules : List DModule
deriving DecidableEq

/-- A debris target (satellite.py): mean orbital elements
`[a, inc, raan]`, their standard deviations, mass, risk score, owner. -/
structure Target where
  orbit_mean : List ℚ
  orbit_unc : List ℚ
  mass : ℚ
  score : ℚ
  country : String
deriving DecidableEq

/-- The numeric kernels called by the simulator, abstracted as function
arguments: `transfer_costs orbit1 unc1 orbit2 unc2 mass thrust isp`
returns `(delta_v, prop_mass, tof)`; `raan_wait` returns the phasing wait;
`alt_drop orbit1 mass prop_mass thrust isp` returns
`(alt_drop, tof, delta_v)`; `raan_dot a inc` is the precession rate;
`exp` stands for `np.exp` in the docking propellant update. -/
structure Kernels where
  transfer_costs : List ℚ → List ℚ → List ℚ → List ℚ → ℚ → ℚ → ℚ → ℚ × ℚ × ℚ
  raan_wait : List ℚ → List ℚ → List ℚ → List ℚ → ℚ → ℚ
  alt_drop : List ℚ → ℚ → ℚ → ℚ → ℚ → ℚ × ℚ × ℚ
  raan_dot : ℚ → ℚ → ℚ
  exp : ℚ → ℚ

/-- The configuration held by a `Mission` object (constructor arguments of
`Mission.__init__`). -/
structure Config where
  targets : List Target
  servicers : List Servicer
  weights : ℚ × ℚ × ℚ × ℚ
  year_limit : ℚ
  no_route : Bool

/-- `R_E` as used by the simulator's altitude arithmetic. -/
def R_E_q : ℚ := 6371.0087714

def default_target : Target := ⟨[0, 0, 0], [0, 0, 0], 0, 0, ""⟩

def default_module : DModule := ⟨"", 0, 0, 0, 0⟩

/-- `self.max_score` (lines 48-52): sum of all target scores. -/
def max_score (cfg : Config) : ℚ := (cfg.targets.map Target.score).sum

/-- The distinct-country accumulation of `__init__` (lines 49-55). -/
def distinct_countries (l : List String) : List String :=
  l.foldl (fun acc c => if c ∈ acc then acc else acc ++ [c]) []

/-- `self.max_countries`. -/
def max_countries (cfg : Config) : ℕ :=
  (distinct_countries (cfg.targets.map Target.country)).length

/-- `self.max_veh_mass` (lines 74-78). -/
def max_veh_mass (cfg : Config) : ℚ :=
  (cfg.servicers.map (fun s => s.wet_mass +
    if s.role = Role.mothership then
      (s.modules.headD default_module).wet_mass * (s.modules.length : ℚ)
    else 0)).sum

/-- `np.mod(x, 360)` for rationals (floor modulus, result in `[0, 360)`). -/
def qmod360 (x : ℚ) : ℚ := x - 360 * (⌊x / 360⌋ : ℚ)

/-- `Mission.__propagate_servicer_raan` (lines 654-672). -/
def propagate_servicer_raan (K : Kernels) (a_km inc_deg raan_deg tof : ℚ) : ℚ :=
  qmod360 (raan_deg + K.raan_dot a_km inc_deg * tof)

/-- `Mission.__setup_target_raans` (lines 627-630): note that this *appends*
each target's mean RAAN to `self.target_raans`, it never clears the list —
even though its docstring says "Initialize target raan tracking list" and
the call site comment (line 145) says "Initiate/reset ... target RAANs for
each run". -/
def setup_target_raans (targets : List Target) (target_raans : List ℚ) :
    List ℚ :=
  target_raans ++ targets.map (fun t => t.orbit_mean.getD 2 0)

/-- `Mission.__propagate_target_raans` (lines 633-651): updates entries
`0 .. len(targets)-1` of the RAAN working list in place. -/
def propagate_target_raans (K : Kernels) (targets : List Target) (tof : ℚ)
    (target_raans : List ℚ) : List ℚ :=
  targets.enum.foldl (fun rs p =>
    rs.set p.1 (qmod360 (rs.getD p.1 0 +
      K.raan_dot (p.2.orbit_mean.getD 0 0) (p.2.orbit_mean.getD 1 0) * tof)))
    target_raans

/-- One per-vehicle entry of `self.data_log` (`__setup_log`, lines 675-703). -/
structure LogRec where
  times : List ℚ := []
  captured : List (Option ℕ) := []
  released : List (Option ℕ) := []
  scores : List ℚ := []
  prop_mass : List ℚ := []
  delta_vs : List ℚ := []
  refuels : List ℕ := []
  a_profile : List ℚ := []
  inc_profile : List ℚ := []
  raan_profile : List ℚ := []
deriving DecidableEq

def emptyLog : LogRec := {}

/-- `self.data_log`, a name-keyed dictionary. -/
abbrev DataLog : Type := List (String × LogRec)

def dlGet (dl : DataLog) (name : String) : LogRec :=
  ((dl.find? (fun p => p.1 == name)).map Prod.snd).getD emptyLog

def dlSet (dl : DataLog) (name : String) (r : LogRec) : DataLog :=
  if dl.any (fun p => p.1 == name) then
    dl.map (fun p => if p.1 == name then (name, r) else p)
  else dl ++ [(name, r)]

/-- `Mission.__setup_log` (lines 675-703): assign a fresh record to every
servicer name (and every module name of a mothership). -/
def setup_log (cfg : Config) (dl : DataLog) : DataLog :=
  cfg.servicers.foldl (fun d s =>
    let d1 := dlSet d s.name emptyLog
    if s.role = Role.mothership then
      s.modules.foldl (fun d2 m => dlSet d2 m.name emptyLog) d1
    else d1) dl

/-- `Mission.__logging_data` (lines 706-725). -/
def logging_data (dl : DataLog) (servicer_name : String) (tof : ℚ)
    (capture release : Option ℕ) (score mass delta_v : ℚ) (num_refuels : ℕ)
    (a_km inc_deg raan_deg : ℚ) : DataLog :=
  let r := dlGet dl servicer_name
  let previous_time := if r.times.length = 0 then 0 else r.times.getLastD 0
  dlSet dl servicer_name
    { times := r.times ++ [previous_time + tof]
      captured := r.captured ++ [capture]
      released := r.released ++ [release]
      scores := r.scores ++ [score]
      prop_mass := r.prop_mass ++ [mass]
      delta_vs := r.delta_vs ++ [delta_v]
      refuels := r.refuels ++ [num_refuels]
      a_profile := r.a_profile ++ [a_km]
      inc_profile := r.inc_profile ++ [inc_deg]
      raan_profile := r.raan_profile ++ [raan_deg] }

/-- The outcome of the propellant-margin check of the per-target loop
(lines 201-226): proceed to the transfer (after refueling or not), skip the
target (`continue`), or end the route (`break`). -/
inductive RefuelOutcome
  | proceed (usable_prop : ℚ) (refuels : ℕ) (refueled : Bool)
  | skip
  | terminate
deriving DecidableEq

/-- The safety-margin check (lines 202-206): `3 × prop_mass` for a
Mothership, `(3 + ceil(target_mass / wet_mass)) × prop_mass` otherwise. -/
def insufficient_prop (servicer : Servicer)
    (target_mass prop_mass usable_prop : ℚ) : Bool :=
  if servicer.role = Role.mothership then
    decide (3 * prop_mass > usable_prop)
  else
    decide ((3 + (⌈target_mass / servicer.wet_mass⌉ : ℚ)) * prop_mass
      > usable_prop)

/-- The refuel branch (lines 209-226), translated clause by clause:
if the margin check fails and the target needs more than a full tank *or the
vehicle is a Picker*, skip the target; else refuel if refuels remain (reset
usable propellant to nominal, decrement the count); else end the route. -/
def refuel_decision (servicer : Servicer)
    (target_mass prop_mass usable_prop : ℚ) (refuels : ℕ) : RefuelOutcome :=
  if insufficient_prop servicer target_mass prop_mass usable_prop then
    if prop_mass > servicer.prop_mass ∨ servicer.role = Role.picker then
      RefuelOutcome.skip
    else if refuels > 0 then
      RefuelOutcome.proceed servicer.prop_mass (refuels - 1) true
    else
      RefuelOutcome.terminate
  else
    RefuelOutcome.proceed usable_prop refuels false

/-- The per-vehicle running state of the route loop. -/
structure VehState where
  usable_prop : ℚ
  refuels : ℕ
  loc_a : ℚ
  loc_inc : ℚ
  loc_raan : ℚ
  module_masses : List ℚ
  vehicle_risk_reduction : ℚ
  vehicle_tof : ℚ
  estimated_tof : ℚ
  countries : List String
  country_count : ℕ
deriving DecidableEq

/-- The mission-level mutable state (`self.target_raans`, `self.data_log`)
that survives between calls of `__traverse_routes`. -/
structure MissionAcc where
  target_raans : List ℚ
  data_log : DataLog

/-- The result of one iteration of the per-target loop: `cont` proceeds to
the next route entry (a completed service or a `continue`), `halt` ends the
route (a `break`). -/
inductive LegResult
  | cont (st : VehState) (acc : MissionAcc)
  | halt (st : VehState) (acc : MissionAcc)

/-- The deorbit phase of one loop iteration (lines 281-380): choose the
deorbit destination orbit by vehicle class, dispatch a Mothership module or
fly the vehicle's own deorbit transfer, account time of flight and risk,
propagate the target RAAN working list, and decide whether the route ends.
`orbit1d`/`orbit1d_unc` are the captured target's orbit (the `orbit1 =
orbit2` reassignment of line 285).  For a Picker the source leaves `orbit2`
and `extra_mass` unassigned; neither is read on the Picker path. -/
def leg_deorbit (cfg : Config) (K : Kernels) (servicer : Servicer)
    (i t_ind : ℕ) (target : Target) (orbit1d orbit1d_unc : List ℚ)
    (raan_tof transfer_tof_1 : ℚ) (st3 : VehState) (acc4 : MissionAcc) :
    LegResult :=
  let odo : List ℚ × ℚ :=
    if servicer.role = Role.shuttle then
      ([R_E_q + servicer.drop_off_alt] ++ (orbit1d.drop 1).take 2,
        target.mass)
    else if servicer.role = Role.mothership then
      ([R_E_q + servicer.raan_sync_alt] ++ (orbit1d.drop 1).take 2, 0)
    else (orbit1d, 0)
  let orbit2d := odo.1
  let extra_mass := odo.2
  let orbit2d_unc : List ℚ := [0, 0, 0]
  -- mothership dispatches deorbit module i (lines 296-317)
  let sm : VehState × MissionAcc :=
    if servicer.role = Role.mothership then
      let time := (dlGet acc4.data_log servicer.name).times.getLastD 0
      let deorbiter := servicer.modules.getD i default_module
      let mm := st3.module_masses.set i 0
      let dlog5 := logging_data acc4.data_log deorbiter.name time none
        none 0 deorbiter.prop_mass 0 0 st3.loc_a st3.loc_inc st3.loc_raan
      let acc5 := { acc4 with data_log := dlog5 }
      let ad := K.alt_drop orbit1d (deorbiter.wet_mass + target.mass)
        deorbiter.prop_mass deorbiter.thrust deorbiter.isp
      let dlog6 := logging_data acc5.data_log deorbiter.name ad.2.1
        none (some t_ind) target.score 0 ad.2.2 0 (st3.loc_a - ad.1)
        st3.loc_inc st3.loc_raan
      let acc6 := { acc5 with data_log := dlog6 }
      ({ st3 with module_masses := mm }, acc6)
    else (st3, acc4)
  let st4 := sm.1
  let acc7 := sm.2
  -- picker deorbits itself with the first target; shuttle/mothership fly
  -- the deorbit/return transfer (lines 319-359)
  let pd : VehState × MissionAcc × ℚ :=
    if servicer.role = Role.picker then
      let ad := K.alt_drop orbit1d (servicer.wet_mass + target.mass)
        servicer.prop_mass servicer.thrust servicer.isp
      let dlog8 := logging_data acc7.data_log servicer.name ad.2.1
        none (some t_ind) target.score 0 ad.2.2 0 (st4.loc_a - ad.1)
        st4.loc_inc st4.loc_raan
      let acc8 := { acc7 with data_log := dlog8 }
      (st4, acc8, ad.2.1)
    else
      let tc2 := K.transfer_costs orbit1d orbit1d_unc orbit2d
        orbit2d_unc (servicer.dry_mass + st4.usable_prop + extra_mass
          + st4.module_masses.sum) servicer.thrust servicer.isp
      let delta_v_2 := tc2.1
      let prop_mass_2 := tc2.2.1
      let transfer_tof_2 := tc2.2.2
      let usable4 := st4.usable_prop - prop_mass_2
      let raan4 := propagate_servicer_raan K st4.loc_a st4.loc_inc
        st4.loc_raan transfer_tof_2
      let a4 := orbit2d.getD 0 0
      let inc4 := orbit2d.getD 1 0
      let target_val : Option ℕ :=
        if servicer.role = Role.mothership then none else some t_ind
      let st5 := { st4 with
        usable_prop := usable4
        loc_a := a4
        loc_inc := inc4
        loc_raan := raan4 }
      let dlog9 := logging_data acc7.data_log servicer.name
        transfer_tof_2 none target_val target.score usable4 delta_v_2
        st5.refuels a4 inc4 raan4
      let acc8 := { acc7 with data_log := dlog9 }
      (st5, acc8, transfer_tof_2)
  let st6 := pd.1
  let acc9 := pd.2.1
  let transfer_tof_2 := pd.2.2
  -- accounting and target-RAAN propagation (lines 361-371)
  let vt := st6.vehicle_tof + raan_tof + transfer_tof_1
    + servicer.docking_time + transfer_tof_2
  let raans10 := propagate_target_raans K cfg.targets vt acc9.target_raans
  let acc10 := { acc9 with target_raans := raans10 }
  let cc : List String × ℕ :=
    if target.country ∈ st6.countries then
      (st6.countries, st6.country_count)
    else (st6.countries ++ [target.country], st6.country_count + 1)
  let st7 := { st6 with
    vehicle_tof := vt
    vehicle_risk_reduction := st6.vehicle_risk_reduction + target.score
    countries := cc.1
    country_count := cc.2 }
  -- early route ends (lines 373-380)
  let mothership_done : Bool :=
    decide (servicer.role = Role.mothership) && decide (st7.module_masses.sum = (0 : ℚ))
  if mothership_done then LegResult.halt st7 acc10
  else if servicer.role = Role.picker then LegResult.halt st7 acc10
  else LegResult.cont st7 acc10

/-- The service phase after a passed year-limit check (lines 244-279):
wait log, transfer to the target, arrival log, docking (propellant via the
rocket equation with the docking delta-v), capture log, then the deorbit
phase. -/
def leg_capture (cfg : Config) (K : Kernels) (servicer : Servicer)
    (i t_ind : ℕ) (target : Target) (orbit2 orbit2_unc : List ℚ)
    (delta_v_1 prop_mass transfer_tof_1 raan_tof : ℚ) (st1 : VehState)
    (acc1 : MissionAcc) : LegResult :=
  let dlog2 := logging_data acc1.data_log servicer.name raan_tof none
    none 0 st1.usable_prop 0 st1.refuels st1.loc_a st1.loc_inc st1.loc_raan
  let acc2 := { acc1 with data_log := dlog2 }
  let usable2 := st1.usable_prop - prop_mass
  let raan2 := propagate_servicer_raan K st1.loc_a st1.loc_inc
    st1.loc_raan transfer_tof_1
  let a2 := orbit2.getD 0 0
  let inc2 := orbit2.getD 1 0
  let st2 := { st1 with
    usable_prop := usable2
    loc_a := a2
    loc_inc := inc2
    loc_raan := raan2 }
  let dlog3 := logging_data acc2.data_log servicer.name transfer_tof_1
    none none 0 usable2 delta_v_1 st2.refuels a2 inc2 raan2
  let acc3 := { acc2 with data_log := dlog3 }
  -- capture (lines 264-279)
  let raan3 := propagate_servicer_raan K a2 inc2 raan2 servicer.docking_time
  let usable3 := usable2 - (servicer.dry_mass + usable2) *
    (1 - K.exp (-servicer.docking_dv / servicer.isp / (981/100)))
  let st3 := { st2 with
    usable_prop := usable3
    loc_raan := raan3 }
  let dlog4 := logging_data acc3.data_log servicer.name
    servicer.docking_time (some t_ind) none 0 usable3
    servicer.docking_dv st3.refuels a2 inc2 raan3
  let acc4 := { acc3 with data_log := dlog4 }
  leg_deorbit cfg K servicer i t_ind target orbit2 orbit2_unc raan_tof
    transfer_tof_1 st3 acc4

/-- One iteration of the per-target loop of `__traverse_routes`
(lines 183-380).  `i` is the `enumerate` index (used to pick
`servicer.modules[i]`), `t_ind` the target index. -/
def run_leg (cfg : Config) (K : Kernels) (servicer : Servicer)
    (i : ℕ) (t_ind : ℕ) (st : VehState) (acc : MissionAcc) : LegResult :=
  -- transfer to target (lines 186-199)
  let target := cfg.targets.getD t_ind default_target
  let orbit1 := [st.loc_a, st.loc_inc, st.loc_raan]
  let orbit1_unc : List ℚ := [0, 0, 0]
  let orbit2 := target.orbit_mean.take 2 ++ [acc.target_raans.getD t_ind 0]
  let orbit2_unc := target.orbit_unc.take 3
  let tc := K.transfer_costs orbit1 orbit1_unc orbit2 orbit2_unc
    (servicer.dry_mass + st.usable_prop + st.module_masses.sum)
    servicer.thrust servicer.isp
  let delta_v_1 := tc.1
  let prop_mass := tc.2.1
  let transfer_tof_1 := tc.2.2
  -- margin check and refuel branch (lines 201-226)
  match refuel_decision servicer target.mass prop_mass st.usable_prop
      st.refuels with
  | RefuelOutcome.skip => LegResult.cont st acc
  | RefuelOutcome.terminate => LegResult.halt st acc
  | RefuelOutcome.proceed usable1 refuels1 refueled =>
    let dlog1 := logging_data acc.data_log servicer.name 0 none none 0
      servicer.prop_mass 0 refuels1 st.loc_a st.loc_inc st.loc_raan
    let acc1 := if refueled then { acc with data_log := dlog1 } else acc
    -- RAAN wait and year-limit check (lines 229-241)
    let raan_tof := K.raan_wait orbit1 orbit1_unc orbit2 orbit2_unc
      transfer_tof_1
    let raan1 := propagate_servicer_raan K st.loc_a st.loc_inc st.loc_raan
      raan_tof
    let est := st.estimated_tof + raan_tof + 2 * transfer_tof_1
    let st1 := { st with
      usable_prop := usable1
      refuels := refuels1
      loc_raan := raan1
      estimated_tof := est }
    if est / 3600 / 24 / 365 > cfg.year_limit then LegResult.halt st1 acc1
    else
      leg_capture cfg K servicer i t_ind target orbit2 orbit2_unc delta_v_1
        prop_mass transfer_tof_1 raan_tof st1 acc1

/-- The per-target loop of `__traverse_routes` (lines 183-380). -/
def run_route (cfg : Config) (K : Kernels) (servicer : Servicer) :
    ℕ → List ℕ → VehState → MissionAcc → VehState × MissionAcc
  | _, [], st, acc => (st, acc)
  | i, t_ind :: rest, st, acc =>
    match run_leg cfg K servicer i t_ind st acc with
    | LegResult.cont st' acc' => run_route cfg K servicer (i + 1) rest st' acc'
    | LegResult.halt st' acc' => (st', acc')

/-- The per-evaluation accumulators built up across the servicer loop of
`__traverse_routes` (lines 134-149 and 382-406). -/
structure VehOut where
  score_list : List ℚ
  tof_list : List ℚ
  policy_list : List ℚ
  risk_remediated : ℚ
  total_tof : ℚ
  max_tof : ℚ
  refuel_mass : ℚ
  refuels_used : ℕ
  vehicle_used : List ℚ
  vehicle_mass : ℚ

/-- One iteration of the servicer loop of `__traverse_routes`
(lines 152-406): per-vehicle setup — including the call of
`__setup_target_raans`, which appends to the shared working list — the
route walk, and the post-route accounting. -/
def run_servicer (cfg : Config) (K : Kernels) (routes : List (List ℕ))
    (state : VehOut × MissionAcc) (p : ℕ × Servicer) :
    VehOut × MissionAcc :=
  let serv_ind := p.1
  let servicer := p.2
  let out := state.1
  let acc0 := state.2
  let raansS := setup_target_raans cfg.targets acc0.target_raans
  let acc := { acc0 with target_raans := raansS }
  let route := routes.getD serv_ind []
  let refuels := if servicer.role = Role.picker then 0
    else servicer.num_refuels
  let usable_prop := servicer.prop_mass
  let module_masses := if servicer.role = Role.mothership then
      servicer.modules.map DModule.wet_mass
    else [0]
  let st0 : VehState := {
    usable_prop := usable_prop, refuels := refuels,
    loc_a := servicer.a_0, loc_inc := servicer.inc_0,
    loc_raan := servicer.raan_0, module_masses := module_masses,
    vehicle_risk_reduction := 0, vehicle_tof := 0, estimated_tof := 0,
    countries := [], country_count := 0 }
  let dlogS := logging_data acc.data_log servicer.name 0 none none 0
    usable_prop 0 refuels servicer.a_0 servicer.inc_0 servicer.raan_0
  let acc1 := { acc with data_log := dlogS }
  let res := run_route cfg K servicer 0 route st0 acc1
  let stF := res.1
  let accF := res.2
  let vehicle_tof_years := stF.vehicle_tof / 3600 / 24 / 365
  let out1 := { out with
    score_list := out.score_list ++ [stF.vehicle_risk_reduction],
    tof_list := out.tof_list
      ++ [1 / (1 + vehicle_tof_years / cfg.year_limit)],
    policy_list := out.policy_list ++
      [if max_countries cfg = 1 then 1
       else 1 / (1 + (stF.country_count : ℚ) / (max_countries cfg : ℚ))],
    risk_remediated := out.risk_remediated + stF.vehicle_risk_reduction,
    total_tof := out.total_tof + vehicle_tof_years,
    max_tof := if vehicle_tof_years > out.max_tof then vehicle_tof_years
      else out.max_tof,
    refuel_mass := out.refuel_mass +
      (if servicer.role = Role.picker then 0
       else ((servicer.num_refuels - stF.refuels : ℕ) : ℚ)
         * servicer.prop_mass),
    refuels_used := out.refuels_used +
      (if servicer.role = Role.picker then 0
       else servicer.num_refuels - stF.refuels),
    vehicle_used := if route.length > 0 then out.vehicle_used.set serv_ind 1
      else out.vehicle_used,
    vehicle_mass := out.vehicle_mass +
      (if route.length > 0 then
        servicer.wet_mass +
          (if servicer.role = Role.mothership then
            (servicer.modules.headD default_module).wet_mass
              * (servicer.modules.length : ℚ)
          else 0)
       else 0) }
  (out1, accF)

/-- The evaluation result: the returned fitness together with the raw
metrics and the final mission-level mutable state. -/
structure TraverseResult where
  fitness : ℚ
  risk_remediated : ℚ
  total_tof : ℚ
  max_tof : ℚ
  refuel_mass : ℚ
  vehicle_mass : ℚ
  target_raans : List ℚ
  data_log : DataLog

/-- The fitness assembly after the servicer loop (lines 408-422): floor
fitness `1e-5` when no risk was remediated, else the weighted combination
of the four sub-scores. -/
def final_result (cfg : Config) (out : VehOut) (accF : MissionAcc) :
    TraverseResult :=
  if out.risk_remediated = 0 then
    { fitness := 1/100000, risk_remediated := out.risk_remediated,
      total_tof := out.total_tof, max_tof := out.max_tof,
      refuel_mass := out.refuel_mass, vehicle_mass := out.vehicle_mass,
      target_raans := accF.target_raans, data_log := accF.data_log }
  else
    let risk_score := 1/2 + out.score_list.sum / max_score cfg / 2
    let time_score := (out.tof_list.min?).getD 0
    let veh_score := 1 / (1 + out.vehicle_mass / max_veh_mass cfg)
    let policy_score := out.policy_list.sum / (out.policy_list.length : ℚ)
    let performance := cfg.weights.1 * risk_score
      + cfg.weights.2.1 * time_score + cfg.weights.2.2.1 * veh_score
      + cfg.weights.2.2.2 * policy_score
    { fitness := performance, risk_remediated := out.risk_remediated,
      total_tof := out.total_tof, max_tof := out.max_tof,
      refuel_mass := out.refuel_mass, vehicle_mass := out.vehicle_mass,
      target_raans := accF.target_raans, data_log := accF.data_log }

/-- `Mission.__traverse_routes` (lines 114-422), with the mission-level
mutable state (`self.target_raans`, `self.data_log`) passed and returned
explicitly.  The early `no_route` return (lines 130-133) happens before any
per-run state reset; in that path the raw-metric fields of the result are
reported as `0` (in the source the corresponding `self.raw_metrics` simply
retains its previous value — the returned fitness is the floor either
way). -/
def traverse_routes (cfg : Config) (K : Kernels) (state : MissionAcc)
    (ind : List ℕ) : TraverseResult :=
  let routes := decode_routing ind cfg.servicers.length
  if cfg.no_route = false ∧ routes.any (fun route => route.length = 0) then
    { fitness := 1/100000, risk_remediated := 0, total_tof := 0,
      max_tof := 0, refuel_mass := 0, vehicle_mass := 0,
      target_raans := state.target_raans, data_log := state.data_log }
  else
    let dl := setup_log cfg state.data_log
    let init : VehOut × MissionAcc :=
      ({ score_list := [], tof_list := [], policy_list := [],
         risk_remediated := 0, total_tof := 0, max_tof := 0,
         refuel_mass := 0, refuels_used := 0,
         vehicle_used := List.replicate cfg.servicers.length 0,
         vehicle_mass := 0 },
       { target_raans := state.target_raans, data_log := dl })
    let resPair := cfg.servicers.enum.foldl
      (fun stt p => run_servicer cfg K routes stt p) init
    final_result cfg resPair.1 resPair.2

/-! ### Floor fitness (C5) -/

lemma final_result_floor (cfg : Config) (out : VehOut) (accF : MissionAcc)
    (h : (final_result cfg out accF).risk_remediated = 0) :
    (final_result cfg out accF).fitness = 1/100000 := by
  unfold final_result at h ⊢
  by_cases hr : out.risk_remediated = 0
  · rw [if_pos hr]
  · rw [if_neg hr] at h
    exact absurd h hr

/-- **C5.**  `__traverse_routes` returns exactly the floor fitness
`1e-5 = 1/100000` (a value, never zero, never an exception) whenever the
simulated routes remediate zero total risk; and when the `no_route` flag is
`False`, whenever the genome decodes to at least one empty per-vehicle
route. -/
theorem traverse_routes_floor_fitness (cfg : Config) (K : Kernels)
    (state : MissionAcc) (ind : List ℕ) :
    ((traverse_routes cfg K state ind).risk_remediated = 0 →
      (traverse_routes cfg K state ind).fitness = 1/100000)
    ∧ (cfg.no_route = false →
        (decode_routing ind cfg.servicers.length).any
          (fun route => route.length = 0) →
        (traverse_routes cfg K state ind).fitness = 1/100000) := by
  constructor
  · intro h
    simp only [traverse_routes] at h ⊢
    by_cases hc : cfg.no_route = false ∧
        (decode_routing ind cfg.servicers.length).any
          (fun route => route.length = 0)
    · rw [if_pos hc]
    · rw [if_neg hc] at h ⊢
      exact final_result_floor _ _ _ h
  · intro h1 h2
    simp only [traverse_routes]
    rw [if_pos ⟨h1, h2⟩]

/-! ### Concrete demonstration scenario (instantiating the kernels) -/

/-- Constant unit kernels for concrete runs: every transfer costs
`(1, 1, 1)`, the phasing wait equals the destination's working RAAN (so the
fitness depends on the RAAN working list), precession rate 1°/s. -/
def K_unit : Kernels :=
  { transfer_costs := fun _ _ _ _ _ _ _ => (1, 1, 1)
    raan_wait := fun _ _ o2 _ _ => o2.getD 2 0
    alt_drop := fun _ _ _ _ _ => (0, 0, 0)
    raan_dot := fun _ _ => 1
    exp := fun _ => 1 }

def shuttle_demo : Servicer :=
  { name := "S", role := Role.shuttle, wet_mass := 100, dry_mass := 50,
    prop_mass := 500, thrust := 1, isp := 1000, a_0 := 7000, inc_0 := 50,
    raan_0 := 0, docking_time := 1, docking_dv := 0, num_refuels := 1,
    drop_off_alt := 300, raan_sync_alt := 0, modules := [] }

def target_demo : Target :=
  { orbit_mean := [7050, 50, 10], orbit_unc := [0, 0, 0], mass := 10,
    score := 5, country := "US" }

def target_zero : Target :=
  { orbit_mean := [7050, 50, 10], orbit_unc := [0, 0, 0], mass := 10,
    score := 0, country := "US" }

def cfg_demo : Config :=
  { targets := [target_demo], servicers := [shuttle_demo],
    weights := (1/4, 1/4, 1/4, 1/4), year_limit := 10, no_route := true }

def cfg_zero : Config :=
  { targets := [target_zero], servicers := [shuttle_demo],
    weights := (1/4, 1/4, 1/4, 1/4), year_limit := 10, no_route := true }

def cfg_nr : Config :=
  { targets := [target_zero], servicers := [shuttle_demo, shuttle_demo],
    weights := (1/4, 1/4, 1/4, 1/4), year_limit := 10, no_route := false }

/-- The mission state as freshly constructed by `Mission.__init__`
(`self.target_raans = []`, `self.data_log = {}`). -/
def fresh_state : MissionAcc := { target_raans := [], data_log := [] }

unseal Rat.add Rat.mul Rat.inv Rat.sub Rat.ofScientific List.merge List.mergeSort in
/-- Witness for C5: a captured target of score zero yields the floor, and
with `no_route = False` a genome with an empty decoded route yields the
floor. -/
theorem traverse_routes_floor_fitness_witness :
    (traverse_routes cfg_zero K_unit fresh_state [0, 1]).fitness = 1/100000
    ∧ (traverse_routes cfg_nr K_unit fresh_state [0, 1, 2]).fitness
        = 1/100000 :=
  ⟨(traverse_routes_floor_fitness cfg_zero K_unit fresh_state [0, 1]).1
      (by decide),
   (traverse_routes_floor_fitness cfg_nr K_unit fresh_state [0, 1, 2]).2
      (by decide) (by decide)⟩

/-! ### Evaluation-history dependence through the target-RAAN working list
(C1) -/

/-- The first evaluation of genome `[0, 1]` from the fresh mission state. -/
def eval1 : TraverseResult := traverse_routes cfg_demo K_unit fresh_state [0, 1]

/-- The second evaluation of the same genome, started from the mission
state the first evaluation left behind. -/
def eval2 : TraverseResult := traverse_routes cfg_demo K_unit
  { target_raans := eval1.target_raans, data_log := eval1.data_log } [0, 1]

unseal Rat.add Rat.mul Rat.inv Rat.sub Rat.ofScientific List.merge List.mergeSort in
/-- **C1.**  Fitness evaluation is *not* independent of evaluation history:
`__setup_target_raans` appends to `self.target_raans` instead of resetting
it (contradicting its own docstring "Initialize target raan tracking list"
and the call-site comment "Initiate/reset ... target RAANs for each run"),
so the second evaluation of the same genome reads the stale, propagated
RAAN `23` at index 0 instead of the target's mean RAAN `10`, the working
list grows by one stale entry per evaluated vehicle, and the returned
fitness of the identical genome differs between the two evaluations. -/
theorem traverse_routes_history_dependent :
    eval1.target_raans = [23]
    ∧ (setup_target_raans cfg_demo.targets eval1.target_raans = [23, 10]
        ∧ target_demo.orbit_mean.getD 2 0 = 10
        ∧ (setup_target_raans cfg_demo.targets eval1.target_raans).getD 0 0
            ≠ 10)
    ∧ eval2.target_raans = [49, 10]
    ∧ eval1.fitness ≠ eval2.fitness := by decide

/-! ### The refuel branch of the per-target loop (C9) -/

/-- **C9 (amended).**  The margin-and-refuel branch (lines 201-226),
case by case: with sufficient propellant (margin `3 ×` for a Mothership,
`(3 + ceil(target_mass / wet_mass)) ×` otherwise — a mass-ratio margin, not
an altitude margin) the loop proceeds unchanged; with insufficient
propellant the target is skipped when it needs more than a full tank *or
when the vehicle is a Picker*; otherwise the vehicle refuels if refuels
remain (usable propellant reset to nominal, count decremented), and the
route terminates only for a non-Picker with no refuels left. -/
theorem refuel_decision_cases (servicer : Servicer)
    (target_mass prop_mass usable_prop : ℚ) (refuels : ℕ) :
    (insufficient_prop servicer target_mass prop_mass usable_prop = false →
      refuel_decision servicer target_mass prop_mass usable_prop refuels
        = RefuelOutcome.proceed usable_prop refuels false)
    ∧ (insufficient_prop servicer target_mass prop_mass usable_prop = true →
        prop_mass > servicer.prop_mass →
        refuel_decision servicer target_mass prop_mass usable_prop refuels
          = RefuelOutcome.skip)
    ∧ (insufficient_prop servicer target_mass prop_mass usable_prop = true →
        servicer.role = Role.picker →
        refuel_decision servicer target_mass prop_mass usable_prop refuels
          = RefuelOutcome.skip)
    ∧ (insufficient_prop servicer target_mass prop_mass usable_prop = true →
        ¬ prop_mass > servicer.prop_mass → servicer.role ≠ Role.picker →
        0 < refuels →
        refuel_decision servicer target_mass prop_mass usable_prop refuels
          = RefuelOutcome.proceed servicer.prop_mass (refuels - 1) true)
    ∧ (insufficient_prop servicer target_mass prop_mass usable_prop = true →
        ¬ prop_mass > servicer.prop_mass → servicer.role ≠ Role.picker →
        refuels = 0 →
        refuel_decision servicer target_mass prop_mass usable_prop refuels
          = RefuelOutcome.terminate) := by
  refine ⟨?_, ?_, ?_, ?_, ?_⟩
  · intro h
    simp [refuel_decision, h]
  · intro h1 h2
    simp [refuel_decision, h1, h2]
  · intro h1 h2
    simp [refuel_decision, h1, h2]
  · intro h1 h2 h3 h4
    simp [refuel_decision, h1, h2, h3, h4]
  · intro h1 h2 h3 h4
    simp [refuel_decision, h1, h2, h3, h4]

unseal Rat.add Rat.mul Rat.inv Rat.sub in
/-- Witness for C9 (amended), terminate case: a Shuttle with no refuels
left, a reachable target, and an insufficient current tank ends its
route. -/
theorem refuel_decision_cases_witness :
    refuel_decision shuttle_demo 10 400 100 0 = RefuelOutcome.terminate :=
  (refuel_decision_cases shuttle_demo 10 400 100 0).2.2.2.2 (by decide)
    (by decide) (by decide) rfl

def picker_demo : Servicer :=
  { name := "P", role := Role.picker, wet_mass := 100, dry_mass := 50,
    prop_mass := 500, thrust := 1, isp := 300, a_0 := 6871, inc_0 := 50,
    raan_0 := 0, docking_time := 1, docking_dv := 0, num_refuels := 0,
    drop_off_alt := 0, raan_sync_alt := 0, modules := [] }

unseal Rat.add Rat.mul Rat.inv Rat.sub in
/-- **C9 (counterexample).**  A Picker with insufficient current
propellant for a target it could reach on a full tank, and no refuels
remaining: the claim says the route terminates, but the code takes the
`continue` branch (`or isinstance(servicer, Picker)`, line 210) and skips
the target instead. -/
theorem refuel_decision_picker_skip_cex :
    insufficient_prop picker_demo 50 200 100 = true
    ∧ ¬ ((200:ℚ) > picker_demo.prop_mass)
    ∧ picker_demo.num_refuels = 0
    ∧ refuel_decision picker_demo 50 200 100 0 = RefuelOutcome.skip
    ∧ RefuelOutcome.skip ≠ RefuelOutcome.terminate := by decide

/-! ### Elitism of the genetic optimizer (C8) -/

/-- Modelled from the spec: the hall of fame of the Genetic Optimizer.
The code (`optimize.py` lines 136-137 and 197) delegates to DEAP's
`tools.HallOfFame(1)` with `hof.insert(best_ind)` once per generation and
reads `hof.items[0]` as the best-ever individual; DEAP is an external
library whose source is not part of this repository.  Per the spec, the
size-1 hall of fame retains the single best fitness ever inserted and never
discards it, even when the corresponding individual is absent from the
current population.  The model keeps the retained best fitness as an
`Option ℚ` (empty before the first generation). -/
def hof_insert : Option ℚ → ℚ → Option ℚ
  | none, x => some x
  | some b, x => some (max b x)

/-- The hall of fame after inserting each generation's best fitness in
order. -/
def hof_run (gen_bests : List ℚ) : Option ℚ := gen_bests.foldl hof_insert none

lemma hof_run_spec :
    ∀ (gens : List ℚ) (acc : Option ℚ) (b : ℚ),
      gens.foldl hof_insert acc = some b →
      (acc = some b ∨ b ∈ gens) ∧ (∀ g ∈ gens, g ≤ b)
        ∧ (∀ a, acc = some a → a ≤ b)
  | [], acc, b => by
    intro h
    refine ⟨Or.inl h, by simp, ?_⟩
    intro a ha
    rw [ha] at h
    cases h
    exact le_refl b
  | g :: rest, acc, b => by
    intro h
    rw [List.foldl_cons] at h
    obtain ⟨hfirst, hrest, hacc⟩ := hof_run_spec rest (hof_insert acc g) b h
    have hgb : g ≤ b := by
      cases acc with
      | none => exact hacc g rfl
      | some c =>
        have := hacc (max c g) rfl
        exact le_trans (le_max_right c g) this
    refine ⟨?_, ?_, ?_⟩
    · rcases hfirst with heq | hmem
      · cases acc with
        | none =>
          cases heq
          exact Or.inr (by simp)
        | some c =>
          simp only [hof_insert, Option.some_inj] at heq
          rcases max_choice c g with hmax | hmax
          · exact Or.inl (by rw [← heq, hmax])
          · exact Or.inr (by rw [← heq, hmax]; simp)
      · exact Or.inr (List.mem_cons_of_mem g hmem)
    · intro g' hg'
      rcases List.mem_cons.mp hg' with rfl | hmem
      · exact hgb
      · exact hrest g' hmem
    · intro a ha
      cases acc with
      | none => cases ha
      | some c =>
        cases ha
        have := hacc (max a g) rfl
        exact le_trans (le_max_left a g) this

/-- **C8.**  The retained best-ever fitness of the optimizer is
non-decreasing from generation to generation (inserting a further
generation's best can only keep or raise it), and the retained best is
never discarded: it is one of the inserted generation bests and dominates
all of them, independently of the current population. -/
theorem hall_of_fame_elitism (gens : List ℚ) (x b : ℚ)
    (h : hof_run gens = some b) :
    (∃ b', hof_run (gens ++ [x]) = some b' ∧ b ≤ b')
    ∧ b ∈ gens ∧ (∀ g ∈ gens, g ≤ b) := by
  have hstep : hof_run (gens ++ [x]) = hof_insert (hof_run gens) x := by
    unfold hof_run
    rw [List.foldl_append]
    rfl
  obtain ⟨hfirst, hall, -⟩ := hof_run_spec gens none b h
  refine ⟨⟨max b x, ?_, le_max_left b x⟩, ?_, hall⟩
  · rw [hstep, h]
    rfl
  · rcases hfirst with heq | hmem
    · cases heq
    · exact hmem

/-- Witness for C8 on a concrete history of generation bests. -/
theorem hall_of_fame_elitism_witness :
    hof_run [2, 5, 3] = some 5
    ∧ ((∃ b', hof_run ([2, 5, 3] ++ [4]) = some b' ∧ (5:ℚ) ≤ b')
        ∧ (5:ℚ) ∈ [(2:ℚ), 5, 3] ∧ (∀ g ∈ [(2:ℚ), 5, 3], g ≤ 5)) :=
  ⟨by decide, hall_of_fame_elitism [2, 5, 3] 4 5 (by decide)⟩

end ADRToolbox
